import Mathlib

/-
Shallow embedding of `envoyextensions/extensioncommon/basic_envoy_extender.go`
(package extensioncommon of the consul repository) together with proofs about
the claims of the specification.

Modelling conventions:
- Go `error` values produced by this file are modelled by the inductive
  `GoError` below: `simple` is a leaf error (an extension-produced error is
  identified with its text, plus `fmt.Errorf` without `%w`), `wrap p e` is
  `fmt.Errorf(p + ": %w", e)`, and `multi es` is a `*multierror.Error` holding
  the errors `es` in order.  A nil Go error is `none : Option GoError`.
  Folding `multierror.Append` over an initially-nil error and non-multierror
  errors `e1 .. en` yields `*multierror.Error{Errors: [e1, .., en]}` and yields
  nil when no append happened; the conversion `listToMulti` below captures
  exactly that, so the orchestration code accumulates plain `List GoError`
  values and converts at each Go function boundary.
- Go maps are modelled as association lists with unique keys (`lookupKey`,
  `setKey`); map iteration is list-order iteration, which the spec declares
  irrelevant to correctness.
- Protobuf message pointers that the source dereferences through a nil check
  are modelled with `Option`; a nil-pointer dereference (a Go panic) is
  modelled by the whole call returning `none`.
- The listener patchers mutate the listener **in place** in Go
  (`filterChain.Filters = filters` on the chains of the very listener stored
  in the resource map) and return the same pointer; the model therefore always
  writes the returned listener back to the map entry it was read from,
  mirroring the aliasing, and additionally stores it under the listener type
  when `patched` is true and no error occurred, mirroring the explicit store.
-/

namespace ExtensionCommon

/-- Modelled from the spec: the fixed local-service sentinel cluster name from
package `xdscommon` (not part of src); only its equality with cluster map keys
matters to this code. -/
def LocalAppClusterName : String := "local_app"

/-- Modelled from the spec: the well-known outbound-listener name from package
`xdscommon` (not part of src); only equality with listener name prefixes
matters. -/
def OutboundListenerName : String := "outbound_listener"

/-- Modelled from the spec: the well-known public-listener name from package
`xdscommon` (not part of src); only equality with listener name prefixes
matters. -/
def PublicListenerName : String := "public_listener"

/-- Modelled from the spec: `api.ServiceKindTerminatingGateway` (service kinds
are strings in the api package; the spec names the kind `terminating-gateway`). -/
def ServiceKindTerminatingGateway : String := "terminating-gateway"

/-- Modelled from the spec: `api.ServiceKindConnectProxy` (the spec names the
kind `connect-proxy`). -/
def ServiceKindConnectProxy : String := "connect-proxy"

/-- Go error values as produced by this file; see the header comment. -/
inductive GoError where
  | simple (text : String)
  | wrap (text : String) (err : GoError)
  | multi (errs : List GoError)

/-- Conversion between the accumulated error list of one Go function and the
`error` return value built by folding `multierror.Append` over it: nil when
nothing was appended, a `*multierror.Error` with the errors in order otherwise. -/
def listToMulti (es : List GoError) : Option GoError :=
  match es with
  | [] => none
  | _ => some (.multi es)

/-- The list of component errors of a possibly-nil aggregate error. -/
def errListO (e : Option GoError) : List GoError :=
  match e with
  | none => []
  | some (.multi es) => es
  | some e => [e]

/-- An opaque `envoy_cluster_v3.Cluster` payload: this file never inspects a
cluster's contents, only the map key it is stored under. -/
structure Cluster where
  data : Nat
deriving DecidableEq

/-- An opaque `envoy_listener_v3.Filter` payload: this file's orchestration
never inspects a filter's contents, it only hands filters to `PatchFilter`. -/
structure Filter where
  data : Nat
deriving DecidableEq

/-- An `envoy_core_v3.CidrRange` entry of a filter chain match; `address` is
the source's `AddressPrefix` field (the full VIP string). The prefix length is
never read by this code and is omitted. -/
structure CidrRange where
  address : String
deriving DecidableEq

/-- An `envoy_listener_v3.FilterChainMatch`: `serverNames` is `ServerNames`,
`cidrRanges` is `PrefixRanges`. -/
structure FilterChainMatch where
  serverNames : List String
  cidrRanges : List CidrRange
deriving DecidableEq

/-- An `envoy_listener_v3.FilterChain`; `filterChainMatch` is the (nilable)
`FilterChainMatch` message pointer. -/
structure FilterChain where
  filterChainMatch : Option FilterChainMatch
  filters : List Filter
deriving DecidableEq

/-- An `envoy_listener_v3.Listener`. -/
structure Listener where
  name : String
  filterChains : List FilterChain
deriving DecidableEq

/-- A member of `WeightedCluster.Clusters` (`ClusterWeight`): a named, weighted
cluster reference. -/
structure ClusterWeight where
  name : String
  weight : Nat
deriving DecidableEq

/-- The `cluster_specifier` oneof of an `envoy_route_v3.RouteAction`:
`GetCluster` returns the name only in the `cluster` case (else the empty
string), `GetWeightedClusters` returns the list only in the
`weightedClusters` case (else nil); `other` covers the remaining variants and
the unset case. -/
inductive ClusterSpecifier where
  | cluster (name : String)
  | weightedClusters (clusters : List ClusterWeight)
  | other
deriving DecidableEq

/-- An `envoy_route_v3.RouteAction`. -/
structure RouteAction where
  clusterSpecifier : ClusterSpecifier
deriving DecidableEq

/-- An `envoy_route_v3.Route` table entry: `action` models `GetRoute()`, which
is `none` when the route's action oneof is not a `RouteAction` (redirect,
direct response, ...). -/
structure RouteEntry where
  action : Option RouteAction
deriving DecidableEq

/-- An `envoy_route_v3.VirtualHost`. -/
structure VirtualHost where
  routes : List RouteEntry
deriving DecidableEq

/-- An `envoy_route_v3.RouteConfiguration`. -/
structure RouteConfiguration where
  name : String
  virtualHosts : List VirtualHost
deriving DecidableEq

/-- A `proto.Message` stored in the indexed resource set: one of the three
payload shapes the orchestrator dispatches on, or an unsupported payload
carrying the text that `%T` would print for it. -/
inductive Resource where
  | cluster (c : Cluster)
  | listener (l : Listener)
  | route (r : RouteConfiguration)
  | other (typeName : String)
deriving DecidableEq

/-- The `RuntimeConfig` scope of one extension instance.  The type itself
lives outside src; the queries the source calls on it (`Kind`, `IsUpstream`,
`MatchesUpstreamServiceSNI`, `EnvoyID`, `Upstreams[ServiceName].VIP`) are
modelled as opaque fields, per the spec's description of the type. `upstreamVIP
name` models `Upstreams[name].VIP`, with the Go zero value (empty string) for
absent keys. -/
structure RuntimeConfig where
  kind : String
  isUpstream : Bool
  matchesUpstreamServiceSNI : String → Bool
  envoyID : String
  serviceName : String
  upstreamVIP : String → String

/-- The `BasicExtension` interface: the patch calls return the patched value
and the changed flag, or the extension's error (identified with its text). -/
structure BasicExtension where
  canApply : RuntimeConfig → Bool
  patchRoute : RuntimeConfig → RouteConfiguration → Except String (RouteConfiguration × Bool)
  patchCluster : RuntimeConfig → Cluster → Except String (Cluster × Bool)
  patchFilter : RuntimeConfig → Filter → Except String (Filter × Bool)

/-- The three resource-kind tags the orchestrator iterates
(`xdscommon.ListenerType`, `RouteType`, `ClusterType`). -/
inductive ResType where
  | listenerT
  | routeT
  | clusterT
deriving DecidableEq

/-- The indexed resource set: one association list (Go map) per resource kind. -/
structure IndexedResources where
  listeners : List (String × Resource)
  routes : List (String × Resource)
  clusters : List (String × Resource)
deriving DecidableEq

/-- Go map read: first entry with the given key. -/
def lookupKey {α : Type} : List (String × α) → String → Option α
  | [], _ => none
  | (k, v) :: rest, key => if k = key then some v else lookupKey rest key

/-- Go map write: replace the entry with the given key, appending when absent. -/
def setKey {α : Type} : List (String × α) → String → α → List (String × α)
  | [], key, v => [(key, v)]
  | (k, w) :: rest, key, v =>
    if k = key then (key, v) :: rest else (k, w) :: setKey rest key v

/-- The map of the given resource kind. -/
def IndexedResources.ofType (res : IndexedResources) : ResType → List (String × Resource)
  | .listenerT => res.listeners
  | .routeT => res.routes
  | .clusterT => res.clusters

/-- Write one entry of the map of the given resource kind. -/
def IndexedResources.set (res : IndexedResources) (t : ResType) (key : String) (v : Resource) : IndexedResources :=
  match t with
  | .listenerT => { res with listeners := setKey res.listeners key v }
  | .routeT => { res with routes := setKey res.routes key v }
  | .clusterT => { res with clusters := setKey res.clusters key v }

/-- The `getSNI` helper: the first declared server name of the chain's match,
or the empty string when the match or the list is absent. -/
def getSNI (chain : FilterChain) : String :=
  match chain.filterChainMatch with
  | none => ""
  | some m =>
    match m.serverNames with
    | [] => ""
    | s :: _ => s

/-- The `filterChainTProxyMatch` helper.  The source reads
`filterChain.FilterChainMatch.PrefixRanges` through the raw field without a
nil check, so a chain whose match message is absent dereferences a nil pointer
(a Go panic), modelled as `none`; otherwise the chain matches exactly when some
range's address string equals the VIP string. -/
def filterChainTProxyMatch (vip : String) (filterChain : FilterChain) : Option Bool :=
  match filterChain.filterChainMatch with
  | none => none
  | some m => some (m.cidrRanges.any (fun pr => vip == pr.address))

/-- The shared inner filter loop of the three listener patchers: rebuild the
chain's filter list by calling `PatchFilter` on every filter in order, keeping
the original on `changed=false` or on error (recording the wrapped error), and
substituting the returned filter on `changed=true`.  Returns the new list, the
or-accumulated changed flag, and the recorded errors in order. -/
def patchFilters (ext : BasicExtension) (config : RuntimeConfig) :
    List Filter → List Filter × Bool × List GoError
  | [] => ([], false, [])
  | filter :: rest =>
    let t := patchFilters ext config rest
    match ext.patchFilter config filter with
    | .error e =>
      (filter :: t.1, t.2.1, .wrap "error patching listener filter" (.simple e) :: t.2.2)
    | .ok (newFilter, true) => (newFilter :: t.1, true, t.2.2)
    | .ok (_, false) => (filter :: t.1, t.2.1, t.2.2)

/-- The filter-chain loop of `patchTerminatingGatewayListener`: chains whose
`getSNI` is empty or fails `MatchesUpstreamServiceSNI` are skipped; candidate
chains get their filter list rebuilt by the inner filter loop. -/
def patchTGChains (ext : BasicExtension) (config : RuntimeConfig) :
    List FilterChain → List FilterChain × Bool × List GoError
  | [] => ([], false, [])
  | fc :: rest =>
    let t := patchTGChains ext config rest
    let sni := getSNI fc
    if sni == "" then (fc :: t.1, t.2.1, t.2.2)
    else if !config.matchesUpstreamServiceSNI sni then (fc :: t.1, t.2.1, t.2.2)
    else
      let f := patchFilters ext config fc.filters
      ({ fc with filters := f.1 } :: t.1, f.2.1 || t.2.1, f.2.2 ++ t.2.2)

/-- `patchTerminatingGatewayListener`: not upstream means no-op; otherwise run
the chain loop and return the (in-place mutated) listener, the patched flag,
and the accumulated multierror. -/
def patchTerminatingGatewayListener (ext : BasicExtension) (config : RuntimeConfig)
    (l : Listener) : Listener × Bool × Option GoError :=
  if !config.isUpstream then (l, false, none)
  else
    let t := patchTGChains ext config l.filterChains
    ({ l with filterChains := t.1 }, t.2.1, listToMulti t.2.2)

/-- The filter-chain loop of `patchConnectProxyListener`: every chain's filter
list is rebuilt unconditionally. -/
def patchCPChains (ext : BasicExtension) (config : RuntimeConfig) :
    List FilterChain → List FilterChain × Bool × List GoError
  | [] => ([], false, [])
  | fc :: rest =>
    let t := patchCPChains ext config rest
    let f := patchFilters ext config fc.filters
    ({ fc with filters := f.1 } :: t.1, f.2.1 || t.2.1, f.2.2 ++ t.2.2)

/-- The filter-chain loop of `patchTProxyListener`: chains are filtered by
`filterChainTProxyMatch`; a chain with an absent match message propagates the
panic (`none`). -/
def patchTProxyChains (ext : BasicExtension) (config : RuntimeConfig) (vip : String) :
    List FilterChain → Option (List FilterChain × Bool × List GoError)
  | [] => some ([], false, [])
  | fc :: rest =>
    match filterChainTProxyMatch vip fc with
    | none => none
    | some false =>
      match patchTProxyChains ext config vip rest with
      | none => none
      | some t => some (fc :: t.1, t.2.1, t.2.2)
    | some true =>
      let f := patchFilters ext config fc.filters
      match patchTProxyChains ext config vip rest with
      | none => none
      | some t => some ({ fc with filters := f.1 } :: t.1, f.2.1 || t.2.1, f.2.2 ++ t.2.2)

/-- `patchTProxyListener`: look up the upstream's VIP
(`config.Upstreams[config.ServiceName].VIP`) and run the transparent-proxy
chain loop. -/
def patchTProxyListener (ext : BasicExtension) (config : RuntimeConfig)
    (l : Listener) : Option (Listener × Bool × Option GoError) :=
  let vip := config.upstreamVIP config.serviceName
  match patchTProxyChains ext config vip l.filterChains with
  | none => none
  | some t => some ({ l with filterChains := t.1 }, t.2.1, listToMulti t.2.2)

/-- The `envoyID` extraction of `patchConnectProxyListener`
(`strings.IndexByte(l.Name, ':')` and the slice before it): everything before
the first `:` of the listener name, or the empty string when there is no `:`.
Computed over the character list so that it reduces by computation. -/
def listenerEnvoyID (name : String) : String :=
  if name.toList.contains ':' then
    String.mk (name.toList.takeWhile (fun ch => ch ≠ ':'))
  else ""

/-- `patchConnectProxyListener`: dispatch on the listener-name prefix — the
outbound listener of an upstream config goes to the transparent-proxy loop, an
upstream config otherwise requires the prefix to equal `EnvoyID()`, a
downstream config requires the public listener; eligible listeners get every
chain's filters rebuilt. -/
def patchConnectProxyListener (ext : BasicExtension) (config : RuntimeConfig)
    (l : Listener) : Option (Listener × Bool × Option GoError) :=
  let envoyID := listenerEnvoyID l.name
  if config.isUpstream && (envoyID == OutboundListenerName) then
    patchTProxyListener ext config l
  else if config.isUpstream && !(envoyID == config.envoyID) then some (l, false, none)
  else if !config.isUpstream && !(envoyID == PublicListenerName) then some (l, false, none)
  else
    let t := patchCPChains ext config l.filterChains
    some ({ l with filterChains := t.1 }, t.2.1, listToMulti t.2.2)

/-- `patchListener`: dispatch on the service kind. -/
def patchListener (ext : BasicExtension) (config : RuntimeConfig)
    (l : Listener) : Option (Listener × Bool × Option GoError) :=
  if config.kind = ServiceKindTerminatingGateway then
    some (patchTerminatingGatewayListener ext config l)
  else if config.kind = ServiceKindConnectProxy then
    patchConnectProxyListener ext config l
  else some (l, false, none)

/-- The cluster case of `Extend`'s resource switch: the two skip guards, then
`PatchCluster`; a changed patch is stored under the cluster type at the same
key, an error is recorded and the entry left alone. -/
def processCluster (ext : BasicExtension) (config : RuntimeConfig)
    (res : IndexedResources) (key : String) (c : Cluster) : IndexedResources × List GoError :=
  if config.isUpstream && !config.matchesUpstreamServiceSNI key then (res, [])
  else if !config.isUpstream && (key == LocalAppClusterName) then (res, [])
  else
    match ext.patchCluster config c with
    | .error e => (res, [.wrap "error patching cluster" (.simple e)])
    | .ok (newCluster, true) => (res.set .clusterT key (.cluster newCluster), [])
    | .ok (_, false) => (res, [])

/-- The route case of `Extend`'s resource switch: skip guards (upstream name
must match the SNI or the envoy ID; downstream has no routes), then
`PatchRoute`, storing a changed patch under the route type at the same key. -/
def processRoute (ext : BasicExtension) (config : RuntimeConfig)
    (res : IndexedResources) (key : String) (r : RouteConfiguration) : IndexedResources × List GoError :=
  let matchesEnvoyID := config.envoyID == key
  if config.isUpstream && !config.matchesUpstreamServiceSNI key && !matchesEnvoyID then (res, [])
  else if !config.isUpstream then (res, [])
  else
    match ext.patchRoute config r with
    | .error e => (res, [.wrap "error patching route" (.simple e)])
    | .ok (newRoute, true) => (res.set .routeT key (.route newRoute), [])
    | .ok (_, false) => (res, [])

/-- The listener case of `Extend`'s resource switch.  The patchers mutate the
listener in place, so the map entry the listener was read from (`phase` map at
`key`) always reflects the returned listener; on error the wrapped error is
recorded and the explicit store is skipped, otherwise a patched listener is
additionally stored under the listener type at the same key.  A panic inside
the patcher propagates as `none`. -/
def processListenerEntry (ext : BasicExtension) (config : RuntimeConfig) (phase : ResType)
    (res : IndexedResources) (key : String) (l : Listener) : Option (IndexedResources × List GoError) :=
  match patchListener ext config l with
  | none => none
  | some (newListener, patched, err) =>
    let res1 := res.set phase key (.listener newListener)
    match err with
    | some e => some (res1, [.wrap "error patching listener" e])
    | none =>
      if patched then some (res1.set .listenerT key (.listener newListener), [])
      else some (res1, [])

/-- One iteration of `Extend`'s inner loop: dispatch on the payload's actual
type; unsupported payloads record the `unsupported type was skipped` error. -/
def processEntry (ext : BasicExtension) (config : RuntimeConfig) (phase : ResType)
    (res : IndexedResources) (key : String) : Resource → Option (IndexedResources × List GoError)
  | .cluster c => some (processCluster ext config res key c)
  | .listener l => processListenerEntry ext config phase res key l
  | .route r => some (processRoute ext config res key r)
  | .other typeName => some (res, [.simple ("unsupported type was skipped: " ++ typeName)])

/-- Fold `processEntry` over the entries of one resource-kind map, threading
the resource set and concatenating the recorded errors in order. -/
def runEntries (ext : BasicExtension) (config : RuntimeConfig) (phase : ResType) :
    List (String × Resource) → IndexedResources → Option (IndexedResources × List GoError)
  | [], res => some (res, [])
  | (key, msg) :: rest, res =>
    match processEntry ext config phase res key msg with
    | none => none
    | some (res1, es1) =>
      match runEntries ext config phase rest res1 with
      | none => none
      | some (res2, es2) => some (res2, es1 ++ es2)

/-- `Extend`: unsupported service kinds and inapplicable extensions pass the
resource set through unchanged with a nil error; otherwise the listener, route
and cluster maps are processed in that order (each map's entries are the ones
present when its pass starts) and the recorded errors are folded into one
aggregate. -/
def Extend (ext : BasicExtension) (resources : IndexedResources) (config : RuntimeConfig) :
    Option (IndexedResources × Option GoError) :=
  if config.kind = ServiceKindTerminatingGateway ∨ config.kind = ServiceKindConnectProxy then
    if ext.canApply config then
      match runEntries ext config .listenerT resources.listeners resources with
      | none => none
      | some (r1, e1) =>
        match runEntries ext config .routeT r1.routes r1 with
        | none => none
        | some (r2, e2) =>
          match runEntries ext config .clusterT r2.clusters r2 with
          | none => none
          | some (r3, e3) => some (r3, listToMulti (e1 ++ e2 ++ e3))
    else some (resources, none)
  else some (resources, none)

/-- The weighted-cluster inner loop of `RouteClusterNames`: insert every named
member of the weighted-cluster set. -/
def weightedInsert (s : Finset String) (wcs : List ClusterWeight) : Finset String :=
  wcs.foldl (fun s c => if c.name ≠ "" then insert c.name s else s) s

/-- The per-route body of `RouteClusterNames`: a route's single cluster name
when set (`GetCluster` non-empty), then every named weighted member
(`GetWeightedClusters` non-nil). -/
def routeInsert (s : Finset String) (r : RouteEntry) : Finset String :=
  match r.action with
  | none => s
  | some ra =>
    let s1 :=
      match ra.clusterSpecifier with
      | .cluster c => if c ≠ "" then insert c s else s
      | _ => s
    match ra.clusterSpecifier with
    | .weightedClusters wcs => weightedInsert s1 wcs
    | _ => s1

/-- The per-virtual-host loop of `RouteClusterNames`. -/
def vhInsert (s : Finset String) (vh : VirtualHost) : Finset String :=
  vh.routes.foldl routeInsert s

/-- `RouteClusterNames`: nil route tables yield nil; otherwise collect, over
every virtual host and route, the route's single cluster name when set and
every named member of its weighted-cluster set, as a set. -/
def RouteClusterNames (route : Option RouteConfiguration) : Option (Finset String) :=
  match route with
  | none => none
  | some route => some (route.virtualHosts.foldl vhInsert ∅)

/-- The routes (in a route table) that make `RouteClusterNames` include `x`
through one table entry: a `RouteAction` whose single cluster name is `x` or
one of whose weighted members is named `x`. -/
def routeEntryTargets (r : RouteEntry) (x : String) : Prop :=
  ∃ ra, r.action = some ra ∧
    (ra.clusterSpecifier = .cluster x ∨
     ∃ wcs, ra.clusterSpecifier = .weightedClusters wcs ∧ ∃ w ∈ wcs, w.name = x)

/-- `x` is a reachable cluster name of the route table: non-empty, and named by
some route of some virtual host. -/
def routeTargets (rc : RouteConfiguration) (x : String) : Prop :=
  x ≠ "" ∧ ∃ vh ∈ rc.virtualHosts, ∃ r ∈ vh.routes, routeEntryTargets r x

/-! ### Characterizations used to state the claims -/

/-- True when the payload is a cluster. -/
def Resource.isCluster : Resource → Bool
  | .cluster _ => true
  | _ => false

/-- True when the payload is a listener. -/
def Resource.isListener : Resource → Bool
  | .listener _ => true
  | _ => false

/-- True when the payload is a route configuration. -/
def Resource.isRoute : Resource → Bool
  | .route _ => true
  | _ => false

/-- True when the payload is a listener or an unsupported payload (one the
orchestrator only reports, never stores). -/
def Resource.isListenerOrOther : Resource → Bool
  | .listener _ => true
  | .other _ => true
  | _ => false

/-- True when the payload is a route configuration or an unsupported payload. -/
def Resource.isRouteOrOther : Resource → Bool
  | .route _ => true
  | .other _ => true
  | _ => false

/-- True when the payload is a cluster or an unsupported payload. -/
def Resource.isClusterOrOther : Resource → Bool
  | .cluster _ => true
  | .other _ => true
  | _ => false

/-- A resource set is well typed when every entry's payload shape agrees with
the kind of the map holding it (the spec's invariant on kind tags). -/
def wellTyped (res : IndexedResources) : Bool :=
  res.listeners.all (fun p => p.2.isListener) &&
  res.routes.all (fun p => p.2.isRoute) &&
  res.clusters.all (fun p => p.2.isCluster)

/-- A weaker shape discipline than `wellTyped`: every entry's payload either
has its map's kind or is an unsupported payload (`Resource.other`) — the case
that produces the `unsupported type was skipped` error.  Every well-typed set
is loosely typed. -/
def looselyTyped (res : IndexedResources) : Bool :=
  res.listeners.all (fun p => p.2.isListenerOrOther) &&
  res.routes.all (fun p => p.2.isRouteOrOther) &&
  res.clusters.all (fun p => p.2.isClusterOrOther)

/-- The cluster skip guard of `Extend`: an upstream-scoped instance skips
clusters whose identity fails `MatchesUpstreamServiceSNI`; a downstream-scoped
instance skips the local-service sentinel cluster. -/
def clusterSkip (config : RuntimeConfig) (key : String) : Bool :=
  (config.isUpstream && !config.matchesUpstreamServiceSNI key) ||
  (!config.isUpstream && (key == LocalAppClusterName))

/-- The route skip guard of `Extend`: downstream-scoped instances skip every
route; upstream-scoped instances skip routes matching neither the SNI
predicate nor the instance's envoy ID. -/
def routeSkip (config : RuntimeConfig) (key : String) : Bool :=
  !config.isUpstream ||
  (!config.matchesUpstreamServiceSNI key && !(config.envoyID == key))

/-- What one patch-eligible cluster entry becomes: `some c'` when the patch
succeeded with `changed=true`, `none` (entry untouched) otherwise. -/
def clusterOutcome (ext : BasicExtension) (config : RuntimeConfig)
    (key : String) (c : Cluster) : Option Cluster :=
  if clusterSkip config key then none
  else
    match ext.patchCluster config c with
    | .ok (c', true) => some c'
    | _ => none

/-- What one route entry becomes, analogously. -/
def routeOutcome (ext : BasicExtension) (config : RuntimeConfig)
    (key : String) (r : RouteConfiguration) : Option RouteConfiguration :=
  if routeSkip config key then none
  else
    match ext.patchRoute config r with
    | .ok (r', true) => some r'
    | _ => none

/-- What one filter becomes under the inner filter loop: the returned filter
on a changed successful patch, the original otherwise. -/
def filterStep (ext : BasicExtension) (config : RuntimeConfig) (f : Filter) : Filter :=
  match ext.patchFilter config f with
  | .ok (nf, true) => nf
  | _ => f

/-- Whether `PatchFilter` reports this filter changed. -/
def filterChangedB (ext : BasicExtension) (config : RuntimeConfig) (f : Filter) : Bool :=
  match ext.patchFilter config f with
  | .ok (_, true) => true
  | _ => false

/-- The wrapped error the inner filter loop records for this filter, if any. -/
def filterErr (ext : BasicExtension) (config : RuntimeConfig) (f : Filter) : Option GoError :=
  match ext.patchFilter config f with
  | .error e => some (.wrap "error patching listener filter" (.simple e))
  | .ok _ => none

/-- Whether a terminating-gateway filter chain is a candidate: its first
declared server name (via `getSNI`) is non-empty and satisfies
`MatchesUpstreamServiceSNI`. -/
def tgCandidate (config : RuntimeConfig) (fc : FilterChain) : Bool :=
  !(getSNI fc == "") && config.matchesUpstreamServiceSNI (getSNI fc)

/-- Whether a transparent-proxy filter chain is a candidate: its match clause
declares a range whose address string equals the VIP exactly (`some true` from
`filterChainTProxyMatch`; an absent match clause is not a candidate value but a
panic). -/
def tproxyCandidate (vip : String) (fc : FilterChain) : Bool :=
  filterChainTProxyMatch vip fc == some true

/-- The errors one resource entry contributes to the aggregate, `none` when
processing that entry panics.  This restates, entry-locally, exactly what the
corresponding branch of `Extend`'s switch records. -/
def entryErrs (ext : BasicExtension) (config : RuntimeConfig) (key : String) :
    Resource → Option (List GoError)
  | .cluster c =>
    some
      (if config.isUpstream && !config.matchesUpstreamServiceSNI key then []
       else if !config.isUpstream && (key == LocalAppClusterName) then []
       else
         match ext.patchCluster config c with
         | .error e => [.wrap "error patching cluster" (.simple e)]
         | .ok _ => [])
  | .listener l =>
    match patchListener ext config l with
    | none => none
    | some (_, _, some e) => some [.wrap "error patching listener" e]
    | some (_, _, none) => some []
  | .route r =>
    some
      (if config.isUpstream && !config.matchesUpstreamServiceSNI key && !(config.envoyID == key) then []
       else if !config.isUpstream then []
       else
         match ext.patchRoute config r with
         | .error e => [.wrap "error patching route" (.simple e)]
         | .ok _ => [])
  | .other typeName => some [.simple ("unsupported type was skipped: " ++ typeName)]

/-- The concatenation, in processing order, of the errors contributed by every
entry of the input resource set. -/
def allEntryErrs (ext : BasicExtension) (config : RuntimeConfig) (res : IndexedResources) : List GoError :=
  ((res.listeners ++ res.routes ++ res.clusters).map
    (fun p => (entryErrs ext config p.1 p.2).getD [])).flatten

/-! ### Map lemmas -/

theorem lookupKey_setKey_self {α : Type} (m : List (String × α)) (k : String) (v : α) :
    lookupKey (setKey m k v) k = some v := by
  induction m with
  | nil => simp [setKey, lookupKey]
  | cons p rest ih =>
    by_cases h : p.1 = k
    · simp [setKey, h, lookupKey]
    · simp [setKey, h, lookupKey, ih]

theorem lookupKey_setKey_ne {α : Type} (m : List (String × α)) (k k₀ : String) (v : α)
    (h : k₀ ≠ k) : lookupKey (setKey m k v) k₀ = lookupKey m k₀ := by
  induction m with
  | nil => simp [setKey, lookupKey, Ne.symm h]
  | cons p rest ih =>
    by_cases hp : p.1 = k
    · simp [setKey, hp, lookupKey, Ne.symm h]
    · simp [setKey, hp, lookupKey, ih]

theorem lookupKey_mem {α : Type} {m : List (String × α)} {k : String} {v : α}
    (h : lookupKey m k = some v) : (k, v) ∈ m := by
  induction m with
  | nil => simp [lookupKey] at h
  | cons p rest ih =>
    by_cases hp : p.1 = k
    · simp [lookupKey, hp] at h
      cases p
      simp_all
    · simp [lookupKey, hp] at h
      exact List.mem_cons_of_mem _ (ih h)

theorem mem_lookupKey {α : Type} {m : List (String × α)} {k : String} {v : α}
    (hnd : (m.map Prod.fst).Nodup) (h : (k, v) ∈ m) : lookupKey m k = some v := by
  induction m with
  | nil => simp at h
  | cons p rest ih =>
    simp only [List.map_cons, List.nodup_cons] at hnd
    rcases List.mem_cons.mp h with h | h
    · subst h
      simp [lookupKey]
    · have hne : p.1 ≠ k := by
        intro he
        exact hnd.1 (he ▸ (List.mem_map.mpr ⟨(k, v), h, rfl⟩))
      simp [lookupKey, hne, ih hnd.2 h]

theorem set_clusterT_listeners (res : IndexedResources) (k : String) (v : Resource) :
    (res.set .clusterT k v).listeners = res.listeners := rfl

theorem set_clusterT_routes (res : IndexedResources) (k : String) (v : Resource) :
    (res.set .clusterT k v).routes = res.routes := rfl

theorem set_routeT_listeners (res : IndexedResources) (k : String) (v : Resource) :
    (res.set .routeT k v).listeners = res.listeners := rfl

theorem set_routeT_clusters (res : IndexedResources) (k : String) (v : Resource) :
    (res.set .routeT k v).clusters = res.clusters := rfl

theorem set_listenerT_routes (res : IndexedResources) (k : String) (v : Resource) :
    (res.set .listenerT k v).routes = res.routes := rfl

theorem set_listenerT_clusters (res : IndexedResources) (k : String) (v : Resource) :
    (res.set .listenerT k v).clusters = res.clusters := rfl

/-! ### Behaviour of one entry of the orchestration loop -/

theorem processCluster_skip (ext : BasicExtension) (config : RuntimeConfig)
    (res : IndexedResources) (key : String) (c : Cluster)
    (h : clusterSkip config key = true) :
    processCluster ext config res key c = (res, []) := by
  simp only [clusterSkip, Bool.or_eq_true, Bool.and_eq_true, Bool.not_eq_true'] at h
  unfold processCluster
  rcases h with ⟨h1, h2⟩ | ⟨h1, h2⟩
  · simp [h1, h2]
  · simp [h1, h2]

theorem processCluster_go (ext : BasicExtension) (config : RuntimeConfig)
    (res : IndexedResources) (key : String) (c : Cluster)
    (h : clusterSkip config key = false) :
    processCluster ext config res key c =
      (match ext.patchCluster config c with
       | .error e => (res, [.wrap "error patching cluster" (.simple e)])
       | .ok (c', true) => (res.set .clusterT key (.cluster c'), [])
       | .ok (_, false) => (res, [])) := by
  simp only [clusterSkip, Bool.or_eq_false_iff] at h
  unfold processCluster
  simp [h.1, h.2]

theorem processCluster_listeners (ext : BasicExtension) (config : RuntimeConfig)
    (res : IndexedResources) (key : String) (c : Cluster) :
    (processCluster ext config res key c).1.listeners = res.listeners := by
  unfold processCluster
  split
  · rfl
  split
  · rfl
  cases hpc : ext.patchCluster config c with
  | error e => rfl
  | ok p =>
    obtain ⟨c', b⟩ := p
    cases b <;> rfl

theorem processCluster_routes (ext : BasicExtension) (config : RuntimeConfig)
    (res : IndexedResources) (key : String) (c : Cluster) :
    (processCluster ext config res key c).1.routes = res.routes := by
  unfold processCluster
  split
  · rfl
  split
  · rfl
  cases hpc : ext.patchCluster config c with
  | error e => rfl
  | ok p =>
    obtain ⟨c', b⟩ := p
    cases b <;> rfl

theorem processCluster_clusters_ne (ext : BasicExtension) (config : RuntimeConfig)
    (res : IndexedResources) (key : String) (c : Cluster) (k₀ : String) (hk : k₀ ≠ key) :
    lookupKey (processCluster ext config res key c).1.clusters k₀ = lookupKey res.clusters k₀ := by
  unfold processCluster
  split
  · rfl
  split
  · rfl
  cases hpc : ext.patchCluster config c with
  | error e => rfl
  | ok p =>
    obtain ⟨c', b⟩ := p
    cases b
    · rfl
    · exact lookupKey_setKey_ne _ _ _ _ hk

theorem processRoute_skip (ext : BasicExtension) (config : RuntimeConfig)
    (res : IndexedResources) (key : String) (r : RouteConfiguration)
    (h : routeSkip config key = true) :
    processRoute ext config res key r = (res, []) := by
  simp only [routeSkip, Bool.or_eq_true, Bool.and_eq_true, Bool.not_eq_true'] at h
  unfold processRoute
  rcases h with h1 | ⟨h1, h2⟩
  · cases hu : config.isUpstream
    · simp [hu]
    · simp [hu] at h1
  · cases hu : config.isUpstream
    · simp [hu]
    · simp [hu, h1, h2]

theorem processRoute_go (ext : BasicExtension) (config : RuntimeConfig)
    (res : IndexedResources) (key : String) (r : RouteConfiguration)
    (h : routeSkip config key = false) :
    processRoute ext config res key r =
      (match ext.patchRoute config r with
       | .error e => (res, [.wrap "error patching route" (.simple e)])
       | .ok (r', true) => (res.set .routeT key (.route r'), [])
       | .ok (_, false) => (res, [])) := by
  simp only [routeSkip, Bool.or_eq_false_iff, Bool.and_eq_false_iff, Bool.not_eq_false'] at h
  obtain ⟨h1, h2⟩ := h
  unfold processRoute
  rcases h2 with h2 | h2
  · simp [h1, h2]
  · simp [h1, h2]

theorem processRoute_listeners (ext : BasicExtension) (config : RuntimeConfig)
    (res : IndexedResources) (key : String) (r : RouteConfiguration) :
    (processRoute ext config res key r).1.listeners = res.listeners := by
  unfold processRoute
  by_cases h1 : (config.isUpstream && !config.matchesUpstreamServiceSNI key && !(config.envoyID == key)) = true
  · simp [h1]
  · rw [Bool.not_eq_true] at h1
    by_cases h2 : (!config.isUpstream) = true
    · simp [h1, h2]
    · rw [Bool.not_eq_true] at h2
      cases hpr : ext.patchRoute config r with
      | error e => simp [h1, h2, hpr]
      | ok p =>
        obtain ⟨r', b⟩ := p
        cases b <;> simp [h1, h2, hpr, IndexedResources.set]

theorem processRoute_clusters (ext : BasicExtension) (config : RuntimeConfig)
    (res : IndexedResources) (key : String) (r : RouteConfiguration) :
    (processRoute ext config res key r).1.clusters = res.clusters := by
  unfold processRoute
  by_cases h1 : (config.isUpstream && !config.matchesUpstreamServiceSNI key && !(config.envoyID == key)) = true
  · simp [h1]
  · rw [Bool.not_eq_true] at h1
    by_cases h2 : (!config.isUpstream) = true
    · simp [h1, h2]
    · rw [Bool.not_eq_true] at h2
      cases hpr : ext.patchRoute config r with
      | error e => simp [h1, h2, hpr]
      | ok p =>
        obtain ⟨r', b⟩ := p
        cases b <;> simp [h1, h2, hpr, IndexedResources.set]

theorem processRoute_routes_ne (ext : BasicExtension) (config : RuntimeConfig)
    (res : IndexedResources) (key : String) (r : RouteConfiguration) (k₀ : String) (hk : k₀ ≠ key) :
    lookupKey (processRoute ext config res key r).1.routes k₀ = lookupKey res.routes k₀ := by
  unfold processRoute
  by_cases h1 : (config.isUpstream && !config.matchesUpstreamServiceSNI key && !(config.envoyID == key)) = true
  · simp [h1]
  · rw [Bool.not_eq_true] at h1
    by_cases h2 : (!config.isUpstream) = true
    · simp [h1, h2]
    · rw [Bool.not_eq_true] at h2
      cases hpr : ext.patchRoute config r with
      | error e => simp [h1, h2, hpr]
      | ok p =>
        obtain ⟨r', b⟩ := p
        cases b
        · simp [h1, h2, hpr]
        · have hs := lookupKey_setKey_ne res.routes key k₀ (Resource.route r') hk
          simp [h1, h2, hpr, IndexedResources.set, hs]

theorem setKey_setKey_self {α : Type} (m : List (String × α)) (k : String) (v v' : α) :
    setKey (setKey m k v) k v' = setKey m k v' := by
  induction m with
  | nil => simp [setKey]
  | cons p rest ih =>
    by_cases hp : p.1 = k
    · simp [setKey, hp]
    · simp [setKey, hp, ih]

theorem processListenerEntry_spec (ext : BasicExtension) (config : RuntimeConfig)
    (res res' : IndexedResources) (key : String) (l : Listener) (es : List GoError)
    (h : processListenerEntry ext config .listenerT res key l = some (res', es)) :
    ∃ l' p ie, patchListener ext config l = some (l', p, ie) ∧
      res'.routes = res.routes ∧ res'.clusters = res.clusters ∧
      lookupKey res'.listeners key = some (.listener l') ∧
      (∀ k₀, k₀ ≠ key → lookupKey res'.listeners k₀ = lookupKey res.listeners k₀) ∧
      es = (match ie with
            | some e => [GoError.wrap "error patching listener" e]
            | none => []) := by
  unfold processListenerEntry at h
  cases hpl : patchListener ext config l with
  | none => rw [hpl] at h; cases h
  | some t =>
    obtain ⟨l', p, ie⟩ := t
    rw [hpl] at h
    refine ⟨l', p, ie, rfl, ?_⟩
    cases ie with
    | some e =>
      simp only [IndexedResources.set, Option.some.injEq, Prod.mk.injEq] at h
      obtain ⟨h1, h2⟩ := h
      subst h1
      subst h2
      exact ⟨rfl, rfl, lookupKey_setKey_self .., fun k₀ hk => lookupKey_setKey_ne _ _ _ _ hk, rfl⟩
    | none =>
      cases hp : p with
      | false =>
        rw [hp] at h
        simp only [IndexedResources.set, Bool.false_eq_true, if_false, Option.some.injEq,
          Prod.mk.injEq] at h
        obtain ⟨h1, h2⟩ := h
        subst h1
        subst h2
        exact ⟨rfl, rfl, lookupKey_setKey_self .., fun k₀ hk => lookupKey_setKey_ne _ _ _ _ hk, rfl⟩
      | true =>
        rw [hp] at h
        simp only [IndexedResources.set, if_true, Option.some.injEq, Prod.mk.injEq] at h
        obtain ⟨h1, h2⟩ := h
        subst h1
        subst h2
        refine ⟨rfl, rfl, ?_, fun k₀ hk => ?_, rfl⟩
        · simp only [setKey_setKey_self]
          exact lookupKey_setKey_self ..
        · simp only [setKey_setKey_self]
          exact lookupKey_setKey_ne _ _ _ _ hk

theorem processEntry_errs (ext : BasicExtension) (config : RuntimeConfig) (phase : ResType)
    (res : IndexedResources) (key : String) (m : Resource) :
    (processEntry ext config phase res key m).map Prod.snd = entryErrs ext config key m := by
  cases m with
  | cluster c =>
    simp only [processEntry, Option.map_some', entryErrs]
    unfold processCluster
    by_cases h1 : (config.isUpstream && !config.matchesUpstreamServiceSNI key) = true
    · simp [h1]
    · rw [Bool.not_eq_true] at h1
      by_cases h2 : (!config.isUpstream && (key == LocalAppClusterName)) = true
      · simp [h1, h2]
      · rw [Bool.not_eq_true] at h2
        cases hpc : ext.patchCluster config c with
        | error e => simp [h1, h2, hpc]
        | ok p =>
          obtain ⟨c', b⟩ := p
          cases b <;> simp [h1, h2, hpc]
  | route r =>
    simp only [processEntry, Option.map_some', entryErrs]
    unfold processRoute
    by_cases h1 : (config.isUpstream && !config.matchesUpstreamServiceSNI key && !(config.envoyID == key)) = true
    · simp [h1]
    · rw [Bool.not_eq_true] at h1
      by_cases h2 : (!config.isUpstream) = true
      · simp [h1, h2]
      · rw [Bool.not_eq_true] at h2
        cases hpr : ext.patchRoute config r with
        | error e => simp [h1, h2, hpr]
        | ok p =>
          obtain ⟨r', b⟩ := p
          cases b <;> simp [h1, h2, hpr]
  | listener l =>
    simp only [processEntry, entryErrs, processListenerEntry]
    cases hpl : patchListener ext config l with
    | none => simp [hpl]
    | some t =>
      obtain ⟨l', p, ie⟩ := t
      cases ie with
      | none => cases p <;> simp [hpl]
      | some e => simp [hpl]
  | other t => simp [processEntry, entryErrs]

/-! ### Behaviour of one pass of the orchestration loop -/

theorem runEntries_clusterT_spec (ext : BasicExtension) (config : RuntimeConfig) :
    ∀ (es : List (String × Resource)) (res : IndexedResources),
      (∀ p ∈ es, p.2.isCluster = true) →
      ∃ res' errs, runEntries ext config .clusterT es res = some (res', errs) ∧
        res'.listeners = res.listeners ∧ res'.routes = res.routes := by
  intro es
  induction es with
  | nil => exact fun res _ => ⟨res, [], rfl, rfl, rfl⟩
  | cons p rest ih =>
    intro res h
    obtain ⟨k, m⟩ := p
    have hm := h (k, m) (List.mem_cons_self _ _)
    cases m <;> simp [Resource.isCluster] at hm
    case cluster c =>
    have hrest : ∀ q ∈ rest, q.2.isCluster = true := fun q hq => h q (List.mem_cons_of_mem _ hq)
    obtain ⟨res', errs, hrun, hl, hr⟩ := ih (processCluster ext config res k c).1 hrest
    refine ⟨res', (processCluster ext config res k c).2 ++ errs, ?_, ?_, ?_⟩
    · simp only [runEntries, processEntry]
      rw [hrun]
    · rw [hl, processCluster_listeners]
    · rw [hr, processCluster_routes]

theorem runEntries_clusterT_notmem (ext : BasicExtension) (config : RuntimeConfig) :
    ∀ (es : List (String × Resource)) (res res' : IndexedResources) (errs : List GoError) (k : String),
      (∀ p ∈ es, p.2.isCluster = true) →
      k ∉ es.map Prod.fst →
      runEntries ext config .clusterT es res = some (res', errs) →
      lookupKey res'.clusters k = lookupKey res.clusters k := by
  intro es
  induction es with
  | nil =>
    intro res res' errs k _ _ hrun
    cases hrun
    rfl
  | cons p rest ih =>
    intro res res' errs k h hk hrun
    obtain ⟨k₁, m⟩ := p
    have hm := h (k₁, m) (List.mem_cons_self _ _)
    cases m <;> simp [Resource.isCluster] at hm
    case cluster c =>
    have hrest : ∀ q ∈ rest, q.2.isCluster = true := fun q hq => h q (List.mem_cons_of_mem _ hq)
    simp only [List.map_cons, List.mem_cons] at hk
    push_neg at hk
    simp only [runEntries, processEntry] at hrun
    cases hr2 : runEntries ext config .clusterT rest (processCluster ext config res k₁ c).1 with
    | none => rw [hr2] at hrun; cases hrun
    | some t =>
      obtain ⟨res2, es2⟩ := t
      rw [hr2] at hrun
      simp only [Option.some.injEq, Prod.mk.injEq] at hrun
      obtain ⟨h1, _⟩ := hrun
      subst h1
      rw [ih _ _ _ _ hrest hk.2 hr2]
      exact processCluster_clusters_ne ext config res k₁ c k hk.1

theorem runEntries_clusterT_point (ext : BasicExtension) (config : RuntimeConfig) :
    ∀ (es : List (String × Resource)) (res res' : IndexedResources) (errs : List GoError)
      (k : String) (c : Cluster),
      (∀ p ∈ es, p.2.isCluster = true) →
      (es.map Prod.fst).Nodup →
      (k, Resource.cluster c) ∈ es →
      runEntries ext config .clusterT es res = some (res', errs) →
      lookupKey res'.clusters k =
        (match clusterOutcome ext config k c with
         | some c' => some (.cluster c')
         | none => lookupKey res.clusters k) := by
  intro es
  induction es with
  | nil =>
    intro res res' errs k c _ _ hmem
    simp at hmem
  | cons p rest ih =>
    intro res res' errs k c h hnd hmem hrun
    obtain ⟨k₁, m⟩ := p
    have hm := h (k₁, m) (List.mem_cons_self _ _)
    cases m <;> simp [Resource.isCluster] at hm
    case cluster c₁ =>
    have hrest : ∀ q ∈ rest, q.2.isCluster = true := fun q hq => h q (List.mem_cons_of_mem _ hq)
    simp only [List.map_cons, List.nodup_cons] at hnd
    simp only [runEntries, processEntry] at hrun
    cases hr2 : runEntries ext config .clusterT rest (processCluster ext config res k₁ c₁).1 with
    | none => rw [hr2] at hrun; cases hrun
    | some t =>
      obtain ⟨res2, es2⟩ := t
      rw [hr2] at hrun
      simp only [Option.some.injEq, Prod.mk.injEq] at hrun
      obtain ⟨h1, _⟩ := hrun
      subst h1
      rcases List.mem_cons.mp hmem with hhead | htail
      · obtain ⟨hk1, hc1⟩ := Prod.mk.injEq .. ▸ hhead
        injection hc1 with hc1
        subst hk1
        subst hc1
        have hknotin : k ∉ rest.map Prod.fst := hnd.1
        rw [runEntries_clusterT_notmem ext config rest _ _ _ k hrest hknotin hr2]
        unfold clusterOutcome
        by_cases hskip : clusterSkip config k = true
        · rw [if_pos hskip, processCluster_skip ext config res k c hskip]
        · rw [Bool.not_eq_true] at hskip
          rw [if_neg (by simp [hskip])]
          rw [processCluster_go ext config res k c hskip]
          cases hpc : ext.patchCluster config c with
          | error e => simp
          | ok q =>
            obtain ⟨c', b⟩ := q
            cases b
            · simp
            · simp [IndexedResources.set, lookupKey_setKey_self]
      · have hkne : k ≠ k₁ := by
          intro he
          exact hnd.1 (he ▸ List.mem_map.mpr ⟨(k, Resource.cluster c), htail, rfl⟩)
        rw [ih _ _ _ k c hrest hnd.2 htail hr2]
        cases hco : clusterOutcome ext config k c with
        | some c' => simp
        | none =>
          simp only
          exact processCluster_clusters_ne ext config res k₁ c₁ k hkne

theorem runEntries_routeT_spec (ext : BasicExtension) (config : RuntimeConfig) :
    ∀ (es : List (String × Resource)) (res : IndexedResources),
      (∀ p ∈ es, p.2.isRouteOrOther = true) →
      ∃ res' errs, runEntries ext config .routeT es res = some (res', errs) ∧
        res'.listeners = res.listeners ∧ res'.clusters = res.clusters := by
  intro es
  induction es with
  | nil => exact fun res _ => ⟨res, [], rfl, rfl, rfl⟩
  | cons p rest ih =>
    intro res h
    obtain ⟨k, m⟩ := p
    have hm := h (k, m) (List.mem_cons_self _ _)
    have hrest : ∀ q ∈ rest, q.2.isRouteOrOther = true := fun q hq => h q (List.mem_cons_of_mem _ hq)
    cases m <;> simp [Resource.isRouteOrOther] at hm
    case route r =>
      obtain ⟨res', errs, hrun, hl, hr⟩ := ih (processRoute ext config res k r).1 hrest
      refine ⟨res', (processRoute ext config res k r).2 ++ errs, ?_, ?_, ?_⟩
      · simp only [runEntries, processEntry]
        rw [hrun]
      · rw [hl, processRoute_listeners]
      · rw [hr, processRoute_clusters]
    case other t =>
      obtain ⟨res', errs, hrun, hl, hr⟩ := ih res hrest
      refine ⟨res', [.simple ("unsupported type was skipped: " ++ t)] ++ errs, ?_, hl, hr⟩
      simp only [runEntries, processEntry]
      rw [hrun]

theorem runEntries_routeT_notmem (ext : BasicExtension) (config : RuntimeConfig) :
    ∀ (es : List (String × Resource)) (res res' : IndexedResources) (errs : List GoError) (k : String),
      (∀ p ∈ es, p.2.isRoute = true) →
      k ∉ es.map Prod.fst →
      runEntries ext config .routeT es res = some (res', errs) →
      lookupKey res'.routes k = lookupKey res.routes k := by
  intro es
  induction es with
  | nil =>
    intro res res' errs k _ _ hrun
    cases hrun
    rfl
  | cons p rest ih =>
    intro res res' errs k h hk hrun
    obtain ⟨k₁, m⟩ := p
    have hm := h (k₁, m) (List.mem_cons_self _ _)
    cases m <;> simp [Resource.isRoute] at hm
    case route r =>
    have hrest : ∀ q ∈ rest, q.2.isRoute = true := fun q hq => h q (List.mem_cons_of_mem _ hq)
    simp only [List.map_cons, List.mem_cons] at hk
    push_neg at hk
    simp only [runEntries, processEntry] at hrun
    cases hr2 : runEntries ext config .routeT rest (processRoute ext config res k₁ r).1 with
    | none => rw [hr2] at hrun; cases hrun
    | some t =>
      obtain ⟨res2, es2⟩ := t
      rw [hr2] at hrun
      simp only [Option.some.injEq, Prod.mk.injEq] at hrun
      obtain ⟨h1, _⟩ := hrun
      subst h1
      rw [ih _ _ _ _ hrest hk.2 hr2]
      exact processRoute_routes_ne ext config res k₁ r k hk.1

theorem runEntries_routeT_point (ext : BasicExtension) (config : RuntimeConfig) :
    ∀ (es : List (String × Resource)) (res res' : IndexedResources) (errs : List GoError)
      (k : String) (r : RouteConfiguration),
      (∀ p ∈ es, p.2.isRoute = true) →
      (es.map Prod.fst).Nodup →
      (k, Resource.route r) ∈ es →
      runEntries ext config .routeT es res = some (res', errs) →
      lookupKey res'.routes k =
        (match routeOutcome ext config k r with
         | some r' => some (.route r')
         | none => lookupKey res.routes k) := by
  intro es
  induction es with
  | nil =>
    intro res res' errs k r _ _ hmem
    simp at hmem
  | cons p rest ih =>
    intro res res' errs k r h hnd hmem hrun
    obtain ⟨k₁, m⟩ := p
    have hm := h (k₁, m) (List.mem_cons_self _ _)
    cases m <;> simp [Resource.isRoute] at hm
    case route r₁ =>
    have hrest : ∀ q ∈ rest, q.2.isRoute = true := fun q hq => h q (List.mem_cons_of_mem _ hq)
    simp only [List.map_cons, List.nodup_cons] at hnd
    simp only [runEntries, processEntry] at hrun
    cases hr2 : runEntries ext config .routeT rest (processRoute ext config res k₁ r₁).1 with
    | none => rw [hr2] at hrun; cases hrun
    | some t =>
      obtain ⟨res2, es2⟩ := t
      rw [hr2] at hrun
      simp only [Option.some.injEq, Prod.mk.injEq] at hrun
      obtain ⟨h1, _⟩ := hrun
      subst h1
      rcases List.mem_cons.mp hmem with hhead | htail
      · obtain ⟨hk1, hr1⟩ := Prod.mk.injEq .. ▸ hhead
        injection hr1 with hr1
        subst hk1
        subst hr1
        have hknotin : k ∉ rest.map Prod.fst := hnd.1
        rw [runEntries_routeT_notmem ext config rest _ _ _ k hrest hknotin hr2]
        unfold routeOutcome
        by_cases hskip : routeSkip config k = true
        · rw [if_pos hskip, processRoute_skip ext config res k r hskip]
        · rw [Bool.not_eq_true] at hskip
          rw [if_neg (by simp [hskip])]
          rw [processRoute_go ext config res k r hskip]
          cases hpr : ext.patchRoute config r with
          | error e => simp
          | ok q =>
            obtain ⟨r', b⟩ := q
            cases b
            · simp
            · simp [IndexedResources.set, lookupKey_setKey_self]
      · have hkne : k ≠ k₁ := by
          intro he
          exact hnd.1 (he ▸ List.mem_map.mpr ⟨(k, Resource.route r), htail, rfl⟩)
        rw [ih _ _ _ k r hrest hnd.2 htail hr2]
        cases hro : routeOutcome ext config k r with
        | some r' => simp
        | none =>
          simp only
          exact processRoute_routes_ne ext config res k₁ r₁ k hkne

theorem runEntries_listenerT_frame (ext : BasicExtension) (config : RuntimeConfig) :
    ∀ (es : List (String × Resource)) (res res' : IndexedResources) (errs : List GoError),
      (∀ p ∈ es, p.2.isListenerOrOther = true) →
      runEntries ext config .listenerT es res = some (res', errs) →
      res'.routes = res.routes ∧ res'.clusters = res.clusters := by
  intro es
  induction es with
  | nil =>
    intro res res' errs _ hrun
    cases hrun
    exact ⟨rfl, rfl⟩
  | cons p rest ih =>
    intro res res' errs h hrun
    obtain ⟨k₁, m⟩ := p
    have hm := h (k₁, m) (List.mem_cons_self _ _)
    have hrest : ∀ q ∈ rest, q.2.isListenerOrOther = true :=
      fun q hq => h q (List.mem_cons_of_mem _ hq)
    cases m <;> simp [Resource.isListenerOrOther] at hm
    case listener l =>
      simp only [runEntries, processEntry] at hrun
      cases hple : processListenerEntry ext config .listenerT res k₁ l with
      | none => rw [hple] at hrun; cases hrun
      | some t =>
        obtain ⟨res1, es1⟩ := t
        rw [hple] at hrun
        dsimp only at hrun
        cases hr2 : runEntries ext config .listenerT rest res1 with
        | none => rw [hr2] at hrun; cases hrun
        | some t2 =>
          obtain ⟨res2, es2⟩ := t2
          rw [hr2] at hrun
          simp only [Option.some.injEq, Prod.mk.injEq] at hrun
          obtain ⟨h1, _⟩ := hrun
          subst h1
          obtain ⟨_, _, _, _, hro, hcl, _, _, _⟩ :=
            processListenerEntry_spec ext config res res1 k₁ l es1 hple
          obtain ⟨ihr, ihc⟩ := ih res1 _ _ hrest hr2
          exact ⟨ihr.trans hro, ihc.trans hcl⟩
    case other t =>
      simp only [runEntries, processEntry] at hrun
      cases hr2 : runEntries ext config .listenerT rest res with
      | none => rw [hr2] at hrun; cases hrun
      | some t2 =>
        obtain ⟨res2, es2⟩ := t2
        rw [hr2] at hrun
        simp only [Option.some.injEq, Prod.mk.injEq] at hrun
        obtain ⟨h1, _⟩ := hrun
        subst h1
        exact ih res _ _ hrest hr2

theorem runEntries_listenerT_notmem (ext : BasicExtension) (config : RuntimeConfig) :
    ∀ (es : List (String × Resource)) (res res' : IndexedResources) (errs : List GoError) (k : String),
      (∀ p ∈ es, p.2.isListener = true) →
      k ∉ es.map Prod.fst →
      runEntries ext config .listenerT es res = some (res', errs) →
      lookupKey res'.listeners k = lookupKey res.listeners k := by
  intro es
  induction es with
  | nil =>
    intro res res' errs k _ _ hrun
    cases hrun
    rfl
  | cons p rest ih =>
    intro res res' errs k h hk hrun
    obtain ⟨k₁, m⟩ := p
    have hm := h (k₁, m) (List.mem_cons_self _ _)
    cases m <;> simp [Resource.isListener] at hm
    case listener l =>
    have hrest : ∀ q ∈ rest, q.2.isListener = true := fun q hq => h q (List.mem_cons_of_mem _ hq)
    simp only [List.map_cons, List.mem_cons] at hk
    push_neg at hk
    simp only [runEntries, processEntry] at hrun
    cases hple : processListenerEntry ext config .listenerT res k₁ l with
    | none => rw [hple] at hrun; cases hrun
    | some t =>
      obtain ⟨res1, es1⟩ := t
      rw [hple] at hrun
      dsimp only at hrun
      cases hr2 : runEntries ext config .listenerT rest res1 with
      | none => rw [hr2] at hrun; cases hrun
      | some t2 =>
        obtain ⟨res2, es2⟩ := t2
        rw [hr2] at hrun
        simp only [Option.some.injEq, Prod.mk.injEq] at hrun
        obtain ⟨h1, _⟩ := hrun
        subst h1
        obtain ⟨_, _, _, _, _, _, _, hne, _⟩ := processListenerEntry_spec ext config res res1 k₁ l es1 hple
        rw [ih res1 _ _ k hrest hk.2 hr2]
        exact hne k hk.1

theorem runEntries_listenerT_point (ext : BasicExtension) (config : RuntimeConfig) :
    ∀ (es : List (String × Resource)) (res res' : IndexedResources) (errs : List GoError)
      (k : String) (l : Listener),
      (∀ p ∈ es, p.2.isListener = true) →
      (es.map Prod.fst).Nodup →
      (k, Resource.listener l) ∈ es →
      runEntries ext config .listenerT es res = some (res', errs) →
      ∃ l' p ie, patchListener ext config l = some (l', p, ie) ∧
        lookupKey res'.listeners k = some (.listener l') := by
  intro es
  induction es with
  | nil =>
    intro res res' errs k l _ _ hmem
    simp at hmem
  | cons p rest ih =>
    intro res res' errs k l h hnd hmem hrun
    obtain ⟨k₁, m⟩ := p
    have hm := h (k₁, m) (List.mem_cons_self _ _)
    cases m <;> simp [Resource.isListener] at hm
    case listener l₁ =>
    have hrest : ∀ q ∈ rest, q.2.isListener = true := fun q hq => h q (List.mem_cons_of_mem _ hq)
    simp only [List.map_cons, List.nodup_cons] at hnd
    simp only [runEntries, processEntry] at hrun
    cases hple : processListenerEntry ext config .listenerT res k₁ l₁ with
    | none => rw [hple] at hrun; cases hrun
    | some t =>
      obtain ⟨res1, es1⟩ := t
      rw [hple] at hrun
      dsimp only at hrun
      cases hr2 : runEntries ext config .listenerT rest res1 with
      | none => rw [hr2] at hrun; cases hrun
      | some t2 =>
        obtain ⟨res2, es2⟩ := t2
        rw [hr2] at hrun
        simp only [Option.some.injEq, Prod.mk.injEq] at hrun
        obtain ⟨h1, _⟩ := hrun
        subst h1
        rcases List.mem_cons.mp hmem with hhead | htail
        · obtain ⟨hk1, hl1⟩ := Prod.mk.injEq .. ▸ hhead
          injection hl1 with hl1
          subst hk1
          subst hl1
          obtain ⟨l', pc, ie, hpl, _, _, hself, _, _⟩ :=
            processListenerEntry_spec ext config res res1 k l es1 hple
          refine ⟨l', pc, ie, hpl, ?_⟩
          rw [runEntries_listenerT_notmem ext config rest res1 _ _ k hrest hnd.1 hr2]
          exact hself
        · exact ih res1 _ _ k l hrest hnd.2 htail hr2

theorem runEntries_errs (ext : BasicExtension) (config : RuntimeConfig) (phase : ResType) :
    ∀ (es : List (String × Resource)) (res res' : IndexedResources) (errs : List GoError),
      runEntries ext config phase es res = some (res', errs) →
      errs = (es.map (fun p => (entryErrs ext config p.1 p.2).getD [])).flatten ∧
      ∀ p ∈ es, (entryErrs ext config p.1 p.2).isSome = true := by
  intro es
  induction es with
  | nil =>
    intro res res' errs hrun
    cases hrun
    exact ⟨rfl, by simp⟩
  | cons p rest ih =>
    intro res res' errs hrun
    obtain ⟨k, m⟩ := p
    simp only [runEntries] at hrun
    cases hpe : processEntry ext config phase res k m with
    | none => rw [hpe] at hrun; cases hrun
    | some t =>
      obtain ⟨res1, es1⟩ := t
      rw [hpe] at hrun
      dsimp only at hrun
      have he : entryErrs ext config k m = some es1 := by
        rw [← processEntry_errs ext config phase res k m, hpe]
        rfl
      cases hr2 : runEntries ext config phase rest res1 with
      | none => rw [hr2] at hrun; cases hrun
      | some t2 =>
        obtain ⟨res2, es2⟩ := t2
        rw [hr2] at hrun
        simp only [Option.some.injEq, Prod.mk.injEq] at hrun
        obtain ⟨h1, h2⟩ := hrun
        subst h1
        subst h2
        obtain ⟨ihe, ihs⟩ := ih res1 _ _ hr2
        constructor
        · simp [he, ihe]
        · intro q hq
          rcases List.mem_cons.mp hq with hq | hq
          · subst hq
            simp [he]
          · exact ihs q hq

theorem errListO_listToMulti (es : List GoError) : errListO (listToMulti es) = es := by
  cases es <;> rfl

theorem listToMulti_eq_none (es : List GoError) : listToMulti es = none ↔ es = [] := by
  cases es <;> simp [listToMulti]

theorem wellTyped_parts {res : IndexedResources} (hwt : wellTyped res = true) :
    (∀ p ∈ res.listeners, p.2.isListener = true) ∧
    (∀ p ∈ res.routes, p.2.isRoute = true) ∧
    (∀ p ∈ res.clusters, p.2.isCluster = true) := by
  simp only [wellTyped, Bool.and_eq_true, List.all_eq_true] at hwt
  exact ⟨hwt.1.1, hwt.1.2, hwt.2⟩

theorem looselyTyped_parts {res : IndexedResources} (hlt : looselyTyped res = true) :
    (∀ p ∈ res.listeners, p.2.isListenerOrOther = true) ∧
    (∀ p ∈ res.routes, p.2.isRouteOrOther = true) ∧
    (∀ p ∈ res.clusters, p.2.isClusterOrOther = true) := by
  simp only [looselyTyped, Bool.and_eq_true, List.all_eq_true] at hlt
  exact ⟨hlt.1.1, hlt.1.2, hlt.2⟩

theorem wellTyped_loose {res : IndexedResources} (hwt : wellTyped res = true) :
    looselyTyped res = true := by
  obtain ⟨h1, h2, h3⟩ := wellTyped_parts hwt
  simp only [looselyTyped, Bool.and_eq_true, List.all_eq_true]
  refine ⟨⟨fun p hp => ?_, fun p hp => ?_⟩, fun p hp => ?_⟩
  · have := h1 p hp
    cases hm : p.2 <;> rw [hm] at this <;>
      simp_all [Resource.isListener, Resource.isListenerOrOther]
  · have := h2 p hp
    cases hm : p.2 <;> rw [hm] at this <;>
      simp_all [Resource.isRoute, Resource.isRouteOrOther]
  · have := h3 p hp
    cases hm : p.2 <;> rw [hm] at this <;>
      simp_all [Resource.isCluster, Resource.isClusterOrOther]

/-- Under a loosely-typed resource set (each map holds payloads of its own
kind or unsupported payloads), a successful `Extend` run decomposes into the
three passes, each pass iterating the corresponding input map (earlier passes
leave the later maps untouched), with the aggregate error folding their
recorded errors in order. -/
theorem Extend_decompose (ext : BasicExtension) (config : RuntimeConfig)
    (res res' : IndexedResources) (agg : Option GoError)
    (hlt : looselyTyped res = true)
    (hkind : config.kind = ServiceKindTerminatingGateway ∨ config.kind = ServiceKindConnectProxy)
    (hca : ext.canApply config = true)
    (hrun : Extend ext res config = some (res', agg)) :
    ∃ r1 e1 r2 e2 e3,
      runEntries ext config .listenerT res.listeners res = some (r1, e1) ∧
      r1.routes = res.routes ∧ r1.clusters = res.clusters ∧
      runEntries ext config .routeT res.routes r1 = some (r2, e2) ∧
      r2.listeners = r1.listeners ∧ r2.clusters = res.clusters ∧
      runEntries ext config .clusterT res.clusters r2 = some (res', e3) ∧
      agg = listToMulti (e1 ++ e2 ++ e3) := by
  obtain ⟨hwl, hwr, hwc⟩ := looselyTyped_parts hlt
  unfold Extend at hrun
  rw [if_pos hkind, if_pos hca] at hrun
  cases hL : runEntries ext config .listenerT res.listeners res with
  | none => rw [hL] at hrun; cases hrun
  | some t1 =>
    obtain ⟨r1, e1⟩ := t1
    rw [hL] at hrun
    dsimp only at hrun
    obtain ⟨hfr1, hfc1⟩ := runEntries_listenerT_frame ext config res.listeners res r1 e1 hwl hL
    rw [hfr1] at hrun
    cases hR : runEntries ext config .routeT res.routes r1 with
    | none => rw [hR] at hrun; cases hrun
    | some t2 =>
      obtain ⟨r2, e2⟩ := t2
      rw [hR] at hrun
      dsimp only at hrun
      obtain ⟨rr, ee, hrr, hfl2, hfc2⟩ := runEntries_routeT_spec ext config res.routes r1 hwr
      rw [hR] at hrr
      simp only [Option.some.injEq, Prod.mk.injEq] at hrr
      obtain ⟨hrr1, _⟩ := hrr
      subst hrr1
      rw [hfc2, hfc1] at hrun
      cases hC : runEntries ext config .clusterT res.clusters r2 with
      | none => rw [hC] at hrun; cases hrun
      | some t3 =>
        obtain ⟨r3, e3⟩ := t3
        rw [hC] at hrun
        dsimp only at hrun
        simp only [Option.some.injEq, Prod.mk.injEq] at hrun
        obtain ⟨h1, h2⟩ := hrun
        subst h1
        exact ⟨r1, e1, r2, e2, e3, rfl, hfr1, hfc1, hR, hfl2, hfc2.trans hfc1, hC, h2.symm⟩

/-! ### Closed forms for the listener patchers -/

theorem patchFilters_spec (ext : BasicExtension) (config : RuntimeConfig) :
    ∀ fs : List Filter,
      (patchFilters ext config fs).1 = fs.map (filterStep ext config) ∧
      (patchFilters ext config fs).2.1 = fs.any (filterChangedB ext config) ∧
      (patchFilters ext config fs).2.2 = fs.filterMap (filterErr ext config) := by
  intro fs
  induction fs with
  | nil => exact ⟨rfl, rfl, rfl⟩
  | cons f rest ih =>
    obtain ⟨ih1, ih2, ih3⟩ := ih
    simp only [patchFilters]
    cases hpf : ext.patchFilter config f with
    | error e => simp [hpf, filterStep, filterChangedB, filterErr, ih1, ih2, ih3]
    | ok p =>
      obtain ⟨nf, b⟩ := p
      cases b <;> simp [hpf, filterStep, filterChangedB, filterErr, ih1, ih2, ih3]

theorem patchTGChains_spec (ext : BasicExtension) (config : RuntimeConfig) :
    ∀ cs : List FilterChain,
      (patchTGChains ext config cs).1 =
        cs.map (fun fc =>
          if tgCandidate config fc then { fc with filters := fc.filters.map (filterStep ext config) }
          else fc) ∧
      (patchTGChains ext config cs).2.1 =
        cs.any (fun fc => tgCandidate config fc && fc.filters.any (filterChangedB ext config)) ∧
      (patchTGChains ext config cs).2.2 =
        (cs.map (fun fc =>
          if tgCandidate config fc then fc.filters.filterMap (filterErr ext config)
          else [])).flatten := by
  intro cs
  induction cs with
  | nil => exact ⟨rfl, rfl, rfl⟩
  | cons fc rest ih =>
    obtain ⟨ih1, ih2, ih3⟩ := ih
    simp only [patchTGChains]
    by_cases h1 : (getSNI fc == "") = true
    · have hc : tgCandidate config fc = false := by simp [tgCandidate, h1]
      simp [h1, hc, ih1, ih2, ih3]
    · rw [Bool.not_eq_true] at h1
      by_cases h2 : config.matchesUpstreamServiceSNI (getSNI fc) = true
      · have hc : tgCandidate config fc = true := by simp [tgCandidate, h1, h2]
        obtain ⟨p1, p2, p3⟩ := patchFilters_spec ext config fc.filters
        simp [h1, h2, hc, ih1, ih2, ih3, p1, p2, p3]
      · rw [Bool.not_eq_true] at h2
        have hc : tgCandidate config fc = false := by simp [tgCandidate, h1, h2]
        simp [h1, h2, hc, ih1, ih2, ih3]

theorem patchTProxyChains_spec (ext : BasicExtension) (config : RuntimeConfig) (vip : String) :
    ∀ cs : List FilterChain,
      (∀ fc ∈ cs, (fc.filterChainMatch).isSome = true) →
      patchTProxyChains ext config vip cs =
        some (cs.map (fun fc =>
                if tproxyCandidate vip fc then { fc with filters := fc.filters.map (filterStep ext config) }
                else fc),
              cs.any (fun fc => tproxyCandidate vip fc && fc.filters.any (filterChangedB ext config)),
              (cs.map (fun fc =>
                if tproxyCandidate vip fc then fc.filters.filterMap (filterErr ext config)
                else [])).flatten) := by
  intro cs
  induction cs with
  | nil => intro _; rfl
  | cons fc rest ih =>
    intro h
    have hfc := h fc (List.mem_cons_self _ _)
    have hrest := ih (fun q hq => h q (List.mem_cons_of_mem _ hq))
    simp only [patchTProxyChains]
    cases hm : fc.filterChainMatch with
    | none => simp [Option.isSome, hm] at hfc
    | some m =>
      have hmatch : filterChainTProxyMatch vip fc = some (m.cidrRanges.any (fun pr => vip == pr.address)) := by
        simp [filterChainTProxyMatch, hm]
      cases hb : m.cidrRanges.any (fun pr => vip == pr.address) with
      | false =>
        have hc : tproxyCandidate vip fc = false := by
          simp [tproxyCandidate, hmatch, hb]
        rw [hmatch, hb, hrest]
        simp [hc]
      | true =>
        have hc : tproxyCandidate vip fc = true := by
          simp [tproxyCandidate, hmatch, hb]
        rw [hmatch, hb, hrest]
        obtain ⟨p1, p2, p3⟩ := patchFilters_spec ext config fc.filters
        simp [hc, p1, p2, p3, hm]

/-! ### Small helpers for the claim proofs -/

theorem Extend_guard_noop (ext : BasicExtension) (res : IndexedResources) (config : RuntimeConfig)
    (h : ¬(config.kind = ServiceKindTerminatingGateway ∨ config.kind = ServiceKindConnectProxy) ∨
         ext.canApply config = false) :
    Extend ext res config = some (res, none) := by
  unfold Extend
  rcases h with h | h
  · rw [if_neg h]
  · by_cases hk : config.kind = ServiceKindTerminatingGateway ∨ config.kind = ServiceKindConnectProxy
    · rw [if_pos hk, if_neg (by simp [h])]
    · rw [if_neg hk]

theorem entryErrs_cluster_skip (ext : BasicExtension) (config : RuntimeConfig)
    (k : String) (c : Cluster) (h : clusterSkip config k = true) :
    entryErrs ext config k (.cluster c) = some [] := by
  simp only [clusterSkip, Bool.or_eq_true, Bool.and_eq_true, Bool.not_eq_true'] at h
  rcases h with ⟨h1, h2⟩ | ⟨h1, h2⟩ <;> simp [entryErrs, h1, h2]

theorem entryErrs_cluster_error (ext : BasicExtension) (config : RuntimeConfig)
    (k : String) (c : Cluster) (e : String)
    (h : clusterSkip config k = false) (hpc : ext.patchCluster config c = .error e) :
    entryErrs ext config k (.cluster c) = some [.wrap "error patching cluster" (.simple e)] := by
  simp only [clusterSkip, Bool.or_eq_false_iff] at h
  simp [entryErrs, h.1, h.2, hpc]

theorem entryErrs_route_skip (ext : BasicExtension) (config : RuntimeConfig)
    (k : String) (r : RouteConfiguration) (h : routeSkip config k = true) :
    entryErrs ext config k (.route r) = some [] := by
  simp only [routeSkip, Bool.or_eq_true, Bool.and_eq_true, Bool.not_eq_true'] at h
  cases hu : config.isUpstream with
  | false => simp [entryErrs, hu]
  | true =>
    rcases h with h1 | ⟨h2, h3⟩
    · simp [hu] at h1
    · simp [entryErrs, hu, h2, h3]

theorem entryErrs_route_error (ext : BasicExtension) (config : RuntimeConfig)
    (k : String) (r : RouteConfiguration) (e : String)
    (h : routeSkip config k = false) (hpr : ext.patchRoute config r = .error e) :
    entryErrs ext config k (.route r) = some [.wrap "error patching route" (.simple e)] := by
  simp only [routeSkip, Bool.or_eq_false_iff, Bool.and_eq_false_iff, Bool.not_eq_false'] at h
  obtain ⟨h1, h2⟩ := h
  rcases h2 with h2 | h2 <;> simp [entryErrs, h1, h2, hpr]

theorem getD_empty_eq_some {o : Option (List GoError)}
    (hs : o.isSome = true) (he : o.getD [] = []) : o = some [] := by
  cases o with
  | none => cases hs
  | some l => rw [Option.getD_some] at he; rw [he]

/-! ### The claims -/

/-- C9: whenever the configuration's service kind is neither terminating-gateway
nor connect-proxy, or `CanApply` reports false, `Extend` returns the input
resource set itself together with a nil error — and since this holds for every
extension whatsoever, no patch call can influence the result, i.e. none is
made. -/
theorem C9_unsupported_kind_or_inapplicable_noop
    (ext : BasicExtension) (res : IndexedResources) (config : RuntimeConfig)
    (h : (config.kind ≠ ServiceKindTerminatingGateway ∧ config.kind ≠ ServiceKindConnectProxy) ∨
         ext.canApply config = false) :
    Extend ext res config = some (res, none) := by
  apply Extend_guard_noop
  rcases h with ⟨h1, h2⟩ | h
  · exact Or.inl (by simp [h1, h2])
  · exact Or.inr h

/-- Witness for C9 at a concrete mesh-gateway configuration and a non-empty
resource set, with an extension whose patches all report changes. -/
theorem C9_witness :
    Extend
      { canApply := fun _ => true,
        patchRoute := fun _ r => .ok (r, true),
        patchCluster := fun _ c => .ok (c, true),
        patchFilter := fun _ f => .ok (f, true) }
      { listeners := [], routes := [], clusters := [("a", .cluster { data := 0 })] }
      { kind := "mesh-gateway", isUpstream := true,
        matchesUpstreamServiceSNI := fun _ => true, envoyID := "", serviceName := "",
        upstreamVIP := fun _ => "" } =
    some ({ listeners := [], routes := [], clusters := [("a", .cluster { data := 0 })] }, none) :=
  C9_unsupported_kind_or_inapplicable_noop _ _ _ (Or.inl ⟨by decide, by decide⟩)

/-- C4: a cluster entry whose identity fails the scope's matching predicate —
for an upstream-scoped instance an identity failing `MatchesUpstreamServiceSNI`,
for a downstream-scoped instance the local-service sentinel identity — is
returned bit-identical to the input, and (for every extension) contributes no
patch outcome or error, i.e. `PatchCluster` is never invoked on it. -/
theorem C4_cluster_skip_frame
    (ext : BasicExtension) (config : RuntimeConfig) (res res' : IndexedResources)
    (agg : Option GoError) (k : String) (c : Cluster)
    (hwt : wellTyped res = true)
    (hnd : (res.clusters.map Prod.fst).Nodup)
    (hlk : lookupKey res.clusters k = some (.cluster c))
    (hskip : (config.isUpstream = true ∧ config.matchesUpstreamServiceSNI k = false) ∨
             (config.isUpstream = false ∧ k = LocalAppClusterName))
    (hrun : Extend ext res config = some (res', agg)) :
    lookupKey res'.clusters k = some (.cluster c) ∧
    entryErrs ext config k (.cluster c) = some [] := by
  have hskipb : clusterSkip config k = true := by
    rcases hskip with ⟨h1, h2⟩ | ⟨h1, h2⟩ <;> simp [clusterSkip, h1, h2]
  refine ⟨?_, entryErrs_cluster_skip ext config k c hskipb⟩
  by_cases hguard : (config.kind = ServiceKindTerminatingGateway ∨
      config.kind = ServiceKindConnectProxy) ∧ ext.canApply config = true
  · obtain ⟨r1, e1, r2, e2, e3, hL, hfr1, hfc1, hR, hfl2, hfc2, hC, hagg⟩ :=
      Extend_decompose ext config res res' agg (wellTyped_loose hwt) hguard.1 hguard.2 hrun
    have hpt := runEntries_clusterT_point ext config res.clusters r2 res' e3 k c
      (wellTyped_parts hwt).2.2 hnd (lookupKey_mem hlk) hC
    rw [hpt]
    have hco : clusterOutcome ext config k c = none := by
      simp [clusterOutcome, hskipb]
    rw [hco]
    simp only
    rw [hfc2]
    exact hlk
  · have hg : ¬(config.kind = ServiceKindTerminatingGateway ∨
        config.kind = ServiceKindConnectProxy) ∨ ext.canApply config = false := by
      by_cases h1 : config.kind = ServiceKindTerminatingGateway ∨ config.kind = ServiceKindConnectProxy
      · refine Or.inr ?_
        by_cases h2 : ext.canApply config = true
        · exact absurd ⟨h1, h2⟩ hguard
        · simpa using h2
      · exact Or.inl h1
    have hnoop := Extend_guard_noop ext res config hg
    rw [hnoop] at hrun
    simp only [Option.some.injEq, Prod.mk.injEq] at hrun
    rw [← hrun.1]
    exact hlk

/-- Witness for C4: a downstream-scoped connect-proxy instance with the
sentinel cluster present and an extension that would rewrite any cluster it is
given; the sentinel entry survives untouched. -/
theorem C4_witness :
    lookupKey
      ({ listeners := [], routes := [], clusters := [("local_app", .cluster { data := 5 })] } :
        IndexedResources).clusters "local_app" = some (.cluster { data := 5 }) ∧
    entryErrs
      { canApply := fun _ => true,
        patchRoute := fun _ r => .ok (r, false),
        patchCluster := fun _ c => .ok ({ data := c.data + 1 }, true),
        patchFilter := fun _ f => .ok (f, false) }
      { kind := "connect-proxy", isUpstream := false,
        matchesUpstreamServiceSNI := fun _ => false, envoyID := "", serviceName := "",
        upstreamVIP := fun _ => "" }
      "local_app" (.cluster { data := 5 }) = some [] :=
  C4_cluster_skip_frame _ _
    { listeners := [], routes := [], clusters := [("local_app", .cluster { data := 5 })] }
    _ _ _ _
    (by decide) (by decide) rfl (Or.inr ⟨rfl, rfl⟩) rfl

/-- C8: `PatchRoute` gating.  A route entry is patched only when the instance
is upstream-scoped and the route's identity satisfies
`MatchesUpstreamServiceSNI` or equals the instance's `EnvoyID()` (the spec's
`DiscoveryID()`): in every other situation the entry is returned bit-identical
and contributes nothing (for every extension), so `PatchRoute` is never
invoked on it; in the eligible situation a successful `changed=true` patch is
stored at the same key. -/
theorem C8_route_gating
    (ext : BasicExtension) (config : RuntimeConfig) (res res' : IndexedResources)
    (agg : Option GoError) (k : String) (r : RouteConfiguration)
    (hwt : wellTyped res = true)
    (hnd : (res.routes.map Prod.fst).Nodup)
    (hlk : lookupKey res.routes k = some (.route r))
    (hrun : Extend ext res config = some (res', agg)) :
    ((config.isUpstream = false ∨
        (config.matchesUpstreamServiceSNI k = false ∧ config.envoyID ≠ k)) →
      lookupKey res'.routes k = some (.route r) ∧
      entryErrs ext config k (.route r) = some []) ∧
    (∀ r', config.isUpstream = true →
      (config.matchesUpstreamServiceSNI k = true ∨ config.envoyID = k) →
      ext.patchRoute config r = .ok (r', true) →
      (config.kind = ServiceKindTerminatingGateway ∨ config.kind = ServiceKindConnectProxy) →
      ext.canApply config = true →
      lookupKey res'.routes k = some (.route r')) := by
  constructor
  · intro hskip
    have hskipb : routeSkip config k = true := by
      rcases hskip with h1 | ⟨h2, h3⟩
      · simp [routeSkip, h1]
      · simp [routeSkip, h2, h3]
    refine ⟨?_, entryErrs_route_skip ext config k r hskipb⟩
    by_cases hguard : (config.kind = ServiceKindTerminatingGateway ∨
        config.kind = ServiceKindConnectProxy) ∧ ext.canApply config = true
    · obtain ⟨r1, e1, r2, e2, e3, hL, hfr1, hfc1, hR, hfl2, hfc2, hC, hagg⟩ :=
        Extend_decompose ext config res res' agg (wellTyped_loose hwt) hguard.1 hguard.2 hrun
      obtain ⟨rr, ee, hrr, hfl3, hfr3⟩ :=
        runEntries_clusterT_spec ext config res.clusters r2 (wellTyped_parts hwt).2.2
      rw [hC] at hrr
      simp only [Option.some.injEq, Prod.mk.injEq] at hrr
      rw [← hrr.1] at hfr3
      rw [hfr3]
      have hpt := runEntries_routeT_point ext config res.routes r1 r2 e2 k r
        (wellTyped_parts hwt).2.1 hnd (lookupKey_mem hlk) hR
      rw [hpt]
      have hro : routeOutcome ext config k r = none := by
        simp [routeOutcome, hskipb]
      rw [hro]
      simp only
      rw [hfr1]
      exact hlk
    · have hg : ¬(config.kind = ServiceKindTerminatingGateway ∨
          config.kind = ServiceKindConnectProxy) ∨ ext.canApply config = false := by
        by_cases h1 : config.kind = ServiceKindTerminatingGateway ∨ config.kind = ServiceKindConnectProxy
        · refine Or.inr ?_
          by_cases h2 : ext.canApply config = true
          · exact absurd ⟨h1, h2⟩ hguard
          · simpa using h2
        · exact Or.inl h1
      have hnoop := Extend_guard_noop ext res config hg
      rw [hnoop] at hrun
      simp only [Option.some.injEq, Prod.mk.injEq] at hrun
      rw [← hrun.1]
      exact hlk
  · intro r' hup hmatch hpr hkind hca
    obtain ⟨r1, e1, r2, e2, e3, hL, hfr1, hfc1, hR, hfl2, hfc2, hC, hagg⟩ :=
      Extend_decompose ext config res res' agg (wellTyped_loose hwt) hkind hca hrun
    obtain ⟨rr, ee, hrr, hfl3, hfr3⟩ :=
      runEntries_clusterT_spec ext config res.clusters r2 (wellTyped_parts hwt).2.2
    rw [hC] at hrr
    simp only [Option.some.injEq, Prod.mk.injEq] at hrr
    rw [← hrr.1] at hfr3
    rw [hfr3]
    have hpt := runEntries_routeT_point ext config res.routes r1 r2 e2 k r
      (wellTyped_parts hwt).2.1 hnd (lookupKey_mem hlk) hR
    rw [hpt]
    have hskipb : routeSkip config k = false := by
      rcases hmatch with h | h
      · simp [routeSkip, hup, h]
      · simp [routeSkip, hup, h]
    have hro : routeOutcome ext config k r = some r' := by
      simp [routeOutcome, hskipb, hpr]
    rw [hro]

/-- Witness for C8: a downstream-scoped connect-proxy instance never patches a
route — the `"db"` route entry is returned unchanged and contributes nothing,
with an extension whose `PatchRoute` would rewrite anything. -/
theorem C8_witness :
    lookupKey
      ({ listeners := [], routes := [("db", .route { name := "db", virtualHosts := [] })],
         clusters := [] } : IndexedResources).routes "db" =
      some (.route { name := "db", virtualHosts := [] }) ∧
    entryErrs
      { canApply := fun _ => true,
        patchRoute := fun _ r => .ok ({ r with name := "patched" }, true),
        patchCluster := fun _ c => .ok (c, false),
        patchFilter := fun _ f => .ok (f, false) }
      { kind := "connect-proxy", isUpstream := false,
        matchesUpstreamServiceSNI := fun _ => true, envoyID := "db", serviceName := "",
        upstreamVIP := fun _ => "" }
      "db" (.route { name := "db", virtualHosts := [] }) = some [] :=
  (C8_route_gating
    { canApply := fun _ => true,
      patchRoute := fun _ r => .ok ({ r with name := "patched" }, true),
      patchCluster := fun _ c => .ok (c, false),
      patchFilter := fun _ f => .ok (f, false) }
    { kind := "connect-proxy", isUpstream := false,
      matchesUpstreamServiceSNI := fun _ => true, envoyID := "db", serviceName := "",
      upstreamVIP := fun _ => "" }
    { listeners := [], routes := [("db", .route { name := "db", virtualHosts := [] })],
      clusters := [] }
    _ _ "db" { name := "db", virtualHosts := [] }
    (by decide) (by decide) rfl rfl).1 (Or.inl rfl)

/-- C1: isolation of patch errors.  Within one `Extend` pass: a cluster whose
`PatchCluster` errors keeps its pre-call form while another cluster whose patch
succeeds with `changed=true` takes its new form, and the aggregate error
carries the wrapped failure; in general any cluster or route entry whose patch
call errors is left untouched with the wrapped error recorded; and inside a
filter chain the rebuilt filter list substitutes the patched filter exactly on
`changed=true` and keeps the original filter on error (`filterStep` maps an
erroring filter to itself). -/
theorem C1_patch_error_isolation :
    (∀ (ext : BasicExtension) (config : RuntimeConfig) (res res' : IndexedResources)
        (agg : Option GoError) (k1 k2 : String) (c1 c2 c2' : Cluster) (e : String),
        wellTyped res = true →
        (res.clusters.map Prod.fst).Nodup →
        k1 ≠ k2 →
        lookupKey res.clusters k1 = some (.cluster c1) →
        lookupKey res.clusters k2 = some (.cluster c2) →
        clusterSkip config k1 = false →
        clusterSkip config k2 = false →
        ext.patchCluster config c1 = .error e →
        ext.patchCluster config c2 = .ok (c2', true) →
        (config.kind = ServiceKindTerminatingGateway ∨ config.kind = ServiceKindConnectProxy) →
        ext.canApply config = true →
        Extend ext res config = some (res', agg) →
        lookupKey res'.clusters k1 = some (.cluster c1) ∧
        lookupKey res'.clusters k2 = some (.cluster c2') ∧
        GoError.wrap "error patching cluster" (.simple e) ∈ errListO agg) ∧
    (∀ (ext : BasicExtension) (config : RuntimeConfig) (res res' : IndexedResources)
        (agg : Option GoError) (k : String) (c : Cluster) (e : String),
        wellTyped res = true →
        (res.clusters.map Prod.fst).Nodup →
        lookupKey res.clusters k = some (.cluster c) →
        clusterSkip config k = false →
        ext.patchCluster config c = .error e →
        (config.kind = ServiceKindTerminatingGateway ∨ config.kind = ServiceKindConnectProxy) →
        ext.canApply config = true →
        Extend ext res config = some (res', agg) →
        lookupKey res'.clusters k = some (.cluster c) ∧
        GoError.wrap "error patching cluster" (.simple e) ∈ errListO agg) ∧
    (∀ (ext : BasicExtension) (config : RuntimeConfig) (res res' : IndexedResources)
        (agg : Option GoError) (k : String) (r : RouteConfiguration) (e : String),
        wellTyped res = true →
        (res.routes.map Prod.fst).Nodup →
        lookupKey res.routes k = some (.route r) →
        routeSkip config k = false →
        ext.patchRoute config r = .error e →
        (config.kind = ServiceKindTerminatingGateway ∨ config.kind = ServiceKindConnectProxy) →
        ext.canApply config = true →
        Extend ext res config = some (res', agg) →
        lookupKey res'.routes k = some (.route r) ∧
        GoError.wrap "error patching route" (.simple e) ∈ errListO agg) ∧
    (∀ (ext : BasicExtension) (config : RuntimeConfig) (fs : List Filter),
        (patchFilters ext config fs).1 = fs.map (filterStep ext config) ∧
        ∀ (f : Filter) (e : String), ext.patchFilter config f = .error e →
          filterStep ext config f = f) := by
  have hclusterr : ∀ (ext : BasicExtension) (config : RuntimeConfig)
      (res res' : IndexedResources) (agg : Option GoError) (k : String) (c : Cluster) (e : String),
      wellTyped res = true →
      (res.clusters.map Prod.fst).Nodup →
      lookupKey res.clusters k = some (.cluster c) →
      clusterSkip config k = false →
      ext.patchCluster config c = .error e →
      (config.kind = ServiceKindTerminatingGateway ∨ config.kind = ServiceKindConnectProxy) →
      ext.canApply config = true →
      Extend ext res config = some (res', agg) →
      lookupKey res'.clusters k = some (.cluster c) ∧
      GoError.wrap "error patching cluster" (.simple e) ∈ errListO agg := by
    intro ext config res res' agg k c e hwt hnd hlk hskip hpc hkind hca hrun
    obtain ⟨r1, e1, r2, e2, e3, hL, hfr1, hfc1, hR, hfl2, hfc2, hC, hagg⟩ :=
      Extend_decompose ext config res res' agg (wellTyped_loose hwt) hkind hca hrun
    constructor
    · have hpt := runEntries_clusterT_point ext config res.clusters r2 res' e3 k c
        (wellTyped_parts hwt).2.2 hnd (lookupKey_mem hlk) hC
      rw [hpt]
      have hco : clusterOutcome ext config k c = none := by
        simp [clusterOutcome, hskip, hpc]
      rw [hco]
      simp only
      rw [hfc2]
      exact hlk
    · obtain ⟨herr, _⟩ := runEntries_errs ext config .clusterT res.clusters r2 res' e3 hC
      have hee : entryErrs ext config k (.cluster c) =
          some [.wrap "error patching cluster" (.simple e)] :=
        entryErrs_cluster_error ext config k c e hskip hpc
      have hmem3 : GoError.wrap "error patching cluster" (.simple e) ∈ e3 := by
        rw [herr]
        apply List.mem_flatten.mpr
        refine ⟨[.wrap "error patching cluster" (.simple e)], ?_, List.mem_singleton.mpr rfl⟩
        apply List.mem_map.mpr
        exact ⟨(k, .cluster c), lookupKey_mem hlk, by rw [hee]; rfl⟩
      rw [hagg, errListO_listToMulti]
      exact List.mem_append.mpr (Or.inr hmem3)
  refine ⟨?_, hclusterr, ?_, ?_⟩
  · intro ext config res res' agg k1 k2 c1 c2 c2' e hwt hnd hne hlk1 hlk2 hskip1 hskip2
      hpc1 hpc2 hkind hca hrun
    obtain ⟨h1, h3⟩ := hclusterr ext config res res' agg k1 c1 e hwt hnd hlk1 hskip1 hpc1 hkind hca hrun
    refine ⟨h1, ?_, h3⟩
    obtain ⟨r1, e1, r2, e2, e3, hL, hfr1, hfc1, hR, hfl2, hfc2, hC, hagg⟩ :=
      Extend_decompose ext config res res' agg (wellTyped_loose hwt) hkind hca hrun
    have hpt := runEntries_clusterT_point ext config res.clusters r2 res' e3 k2 c2
      (wellTyped_parts hwt).2.2 hnd (lookupKey_mem hlk2) hC
    rw [hpt]
    have hco : clusterOutcome ext config k2 c2 = some c2' := by
      simp [clusterOutcome, hskip2, hpc2]
    rw [hco]
  · intro ext config res res' agg k r e hwt hnd hlk hskip hpr hkind hca hrun
    obtain ⟨r1, e1, r2, e2, e3, hL, hfr1, hfc1, hR, hfl2, hfc2, hC, hagg⟩ :=
      Extend_decompose ext config res res' agg (wellTyped_loose hwt) hkind hca hrun
    constructor
    · obtain ⟨rr, ee, hrr, hfl3, hfr3⟩ :=
        runEntries_clusterT_spec ext config res.clusters r2 (wellTyped_parts hwt).2.2
      rw [hC] at hrr
      simp only [Option.some.injEq, Prod.mk.injEq] at hrr
      rw [← hrr.1] at hfr3
      rw [hfr3]
      have hpt := runEntries_routeT_point ext config res.routes r1 r2 e2 k r
        (wellTyped_parts hwt).2.1 hnd (lookupKey_mem hlk) hR
      rw [hpt]
      have hro : routeOutcome ext config k r = none := by
        simp [routeOutcome, hskip, hpr]
      rw [hro]
      simp only
      rw [hfr1]
      exact hlk
    · obtain ⟨herr, _⟩ := runEntries_errs ext config .routeT res.routes r1 r2 e2 hR
      have hee : entryErrs ext config k (.route r) =
          some [.wrap "error patching route" (.simple e)] :=
        entryErrs_route_error ext config k r e hskip hpr
      have hmem2 : GoError.wrap "error patching route" (.simple e) ∈ e2 := by
        rw [herr]
        apply List.mem_flatten.mpr
        refine ⟨[.wrap "error patching route" (.simple e)], ?_, List.mem_singleton.mpr rfl⟩
        apply List.mem_map.mpr
        exact ⟨(k, .route r), lookupKey_mem hlk, by rw [hee]; rfl⟩
      rw [hagg, errListO_listToMulti]
      exact List.mem_append.mpr (Or.inl (List.mem_append.mpr (Or.inr hmem2)))
  · intro ext config fs
    refine ⟨(patchFilters_spec ext config fs).1, ?_⟩
    intro f e hpf
    simp [filterStep, hpf]

/-- Witness for C1: a two-cluster set where `"k1"` fails and `"k2"` succeeds
with a change; a route whose patch errors; and a filter whose patch errors. -/
theorem C1_witness :
    (lookupKey
        ({ listeners := [], routes := [],
           clusters := [("k1", .cluster { data := 1 }), ("k2", .cluster { data := 12 })] } :
          IndexedResources).clusters "k1" = some (.cluster { data := 1 }) ∧
     lookupKey
        ({ listeners := [], routes := [],
           clusters := [("k1", .cluster { data := 1 }), ("k2", .cluster { data := 12 })] } :
          IndexedResources).clusters "k2" = some (.cluster { data := 12 }) ∧
     GoError.wrap "error patching cluster" (.simple "boom") ∈
       errListO (some (.multi [.wrap "error patching cluster" (.simple "boom")]))) ∧
    (lookupKey
        ({ listeners := [], routes := [("r1", .route { name := "r1", virtualHosts := [] })],
           clusters := [] } : IndexedResources).routes "r1" =
        some (.route { name := "r1", virtualHosts := [] }) ∧
     GoError.wrap "error patching route" (.simple "bad") ∈
       errListO (some (.multi [.wrap "error patching route" (.simple "bad")]))) ∧
    (patchFilters
        { canApply := fun _ => true,
          patchRoute := fun _ r => .ok (r, false),
          patchCluster := fun _ c => .ok (c, false),
          patchFilter := fun _ _ => .error "x" }
        { kind := "connect-proxy", isUpstream := true,
          matchesUpstreamServiceSNI := fun _ => true, envoyID := "", serviceName := "",
          upstreamVIP := fun _ => "" }
        [{ data := 7 }]).1 = [{ data := 7 }] := by
  refine ⟨?_, ?_, ?_⟩
  · exact C1_patch_error_isolation.1
      { canApply := fun _ => true,
        patchRoute := fun _ r => .ok (r, false),
        patchCluster := fun _ c =>
          if c.data == 1 then .error "boom" else .ok ({ data := c.data + 10 }, true),
        patchFilter := fun _ f => .ok (f, false) }
      { kind := "connect-proxy", isUpstream := true,
        matchesUpstreamServiceSNI := fun _ => true, envoyID := "", serviceName := "",
        upstreamVIP := fun _ => "" }
      { listeners := [], routes := [],
        clusters := [("k1", .cluster { data := 1 }), ("k2", .cluster { data := 2 })] }
      _ _ "k1" "k2" { data := 1 } { data := 2 } { data := 12 } "boom"
      (by decide) (by decide) (by decide) rfl rfl rfl rfl rfl rfl (Or.inr rfl) rfl rfl
  · exact C1_patch_error_isolation.2.2.1
      { canApply := fun _ => true,
        patchRoute := fun _ _ => .error "bad",
        patchCluster := fun _ c => .ok (c, false),
        patchFilter := fun _ f => .ok (f, false) }
      { kind := "connect-proxy", isUpstream := true,
        matchesUpstreamServiceSNI := fun _ => true, envoyID := "", serviceName := "",
        upstreamVIP := fun _ => "" }
      { listeners := [], routes := [("r1", .route { name := "r1", virtualHosts := [] })],
        clusters := [] }
      _ _ "r1" { name := "r1", virtualHosts := [] } "bad"
      (by decide) (by decide) rfl rfl rfl (Or.inr rfl) rfl rfl
  · exact (C1_patch_error_isolation.2.2.2
      { canApply := fun _ => true,
        patchRoute := fun _ r => .ok (r, false),
        patchCluster := fun _ c => .ok (c, false),
        patchFilter := fun _ _ => .error "x" }
      { kind := "connect-proxy", isUpstream := true,
        matchesUpstreamServiceSNI := fun _ => true, envoyID := "", serviceName := "",
        upstreamVIP := fun _ => "" }
      [{ data := 7 }]).1.trans (by decide)

/-- C2: error aggregation.  On a pass that runs (supported kind, applicable
extension) over a loosely-typed set — each map holds payloads of its own kind
or unsupported payloads, so unsupported-resource-type errors can and do occur —
the aggregate error is exactly the multierror of the errors each entry
contributes, in processing order: every recorded error (patch-call failures
and `unsupported type was skipped` errors alike) is preserved, no failure
aborts the iteration (every entry's contribution appears, whatever earlier
entries did), and the aggregate is nil exactly when no entry contributed any
error. -/
theorem C2_error_aggregation
    (ext : BasicExtension) (config : RuntimeConfig) (res res' : IndexedResources)
    (agg : Option GoError)
    (hlt : looselyTyped res = true)
    (hkind : config.kind = ServiceKindTerminatingGateway ∨ config.kind = ServiceKindConnectProxy)
    (hca : ext.canApply config = true)
    (hrun : Extend ext res config = some (res', agg)) :
    agg = listToMulti (allEntryErrs ext config res) ∧
    (agg = none ↔ ∀ p ∈ res.listeners ++ res.routes ++ res.clusters,
      entryErrs ext config p.1 p.2 = some []) := by
  obtain ⟨r1, e1, r2, e2, e3, hL, hfr1, hfc1, hR, hfl2, hfc2, hC, hagg⟩ :=
    Extend_decompose ext config res res' agg hlt hkind hca hrun
  obtain ⟨he1, hs1⟩ := runEntries_errs ext config .listenerT res.listeners res r1 e1 hL
  obtain ⟨he2, hs2⟩ := runEntries_errs ext config .routeT res.routes r1 r2 e2 hR
  obtain ⟨he3, hs3⟩ := runEntries_errs ext config .clusterT res.clusters r2 res' e3 hC
  have hall : allEntryErrs ext config res = e1 ++ e2 ++ e3 := by
    simp [allEntryErrs, he1, he2, he3, List.map_append, List.flatten_append, List.append_assoc]
  refine ⟨by rw [hagg, hall], ?_⟩
  rw [hagg]
  constructor
  · intro hnone p hp
    have hnil : e1 ++ e2 ++ e3 = [] := (listToMulti_eq_none _).mp hnone
    rw [List.append_eq_nil, List.append_eq_nil] at hnil
    obtain ⟨⟨hn1, hn2⟩, hn3⟩ := hnil
    rcases List.mem_append.mp hp with hp | hp3
    · rcases List.mem_append.mp hp with hp1 | hp2
      · apply getD_empty_eq_some (hs1 p hp1)
        have : (entryErrs ext config p.1 p.2).getD [] ∈
            res.listeners.map (fun q => (entryErrs ext config q.1 q.2).getD []) :=
          List.mem_map.mpr ⟨p, hp1, rfl⟩
        rw [hn1] at he1
        exact (List.flatten_eq_nil_iff.mp he1.symm) _ this
      · apply getD_empty_eq_some (hs2 p hp2)
        have : (entryErrs ext config p.1 p.2).getD [] ∈
            res.routes.map (fun q => (entryErrs ext config q.1 q.2).getD []) :=
          List.mem_map.mpr ⟨p, hp2, rfl⟩
        rw [hn2] at he2
        exact (List.flatten_eq_nil_iff.mp he2.symm) _ this
    · apply getD_empty_eq_some (hs3 p hp3)
      have : (entryErrs ext config p.1 p.2).getD [] ∈
          res.clusters.map (fun q => (entryErrs ext config q.1 q.2).getD []) :=
        List.mem_map.mpr ⟨p, hp3, rfl⟩
      rw [hn3] at he3
      exact (List.flatten_eq_nil_iff.mp he3.symm) _ this
  · intro hnil
    apply (listToMulti_eq_none _).mpr
    have h1 : e1 = [] := by
      rw [he1]
      apply List.flatten_eq_nil_iff.mpr
      intro x hx
      obtain ⟨p, hp, hpx⟩ := List.mem_map.mp hx
      rw [← hpx, hnil p (List.mem_append.mpr (Or.inl (List.mem_append.mpr (Or.inl hp))))]
      rfl
    have h2 : e2 = [] := by
      rw [he2]
      apply List.flatten_eq_nil_iff.mpr
      intro x hx
      obtain ⟨p, hp, hpx⟩ := List.mem_map.mp hx
      rw [← hpx, hnil p (List.mem_append.mpr (Or.inl (List.mem_append.mpr (Or.inr hp))))]
      rfl
    have h3 : e3 = [] := by
      rw [he3]
      apply List.flatten_eq_nil_iff.mpr
      intro x hx
      obtain ⟨p, hp, hpx⟩ := List.mem_map.mp hx
      rw [← hpx, hnil p (List.mem_append.mpr (Or.inr hp))]
      rfl
    rw [h1, h2, h3]
    rfl

/-- Witness for C2: one eligible cluster whose patch fails *and* one entry of
unsupported payload shape in the same pass; both errors land in the aggregate
in order, which is accordingly non-nil. -/
theorem C2_witness :
    (some (GoError.multi
        [.wrap "error patching cluster" (.simple "x"),
         .simple "unsupported type was skipped: *envoy_tls_v3.Secret"]) =
      listToMulti (allEntryErrs
        { canApply := fun _ => true,
          patchRoute := fun _ r => .ok (r, false),
          patchCluster := fun _ _ => .error "x",
          patchFilter := fun _ f => .ok (f, false) }
        { kind := "connect-proxy", isUpstream := true,
          matchesUpstreamServiceSNI := fun _ => true, envoyID := "", serviceName := "",
          upstreamVIP := fun _ => "" }
        { listeners := [], routes := [],
          clusters := [("c", .cluster { data := 0 }),
                       ("weird", .other "*envoy_tls_v3.Secret")] })) ∧
    (some (GoError.multi
        [.wrap "error patching cluster" (.simple "x"),
         .simple "unsupported type was skipped: *envoy_tls_v3.Secret"]) = none ↔
      ∀ p ∈ [("c", Resource.cluster { data := 0 }),
             ("weird", Resource.other "*envoy_tls_v3.Secret")],
        entryErrs
          { canApply := fun _ => true,
            patchRoute := fun _ r => .ok (r, false),
            patchCluster := fun _ _ => .error "x",
            patchFilter := fun _ f => .ok (f, false) }
          { kind := "connect-proxy", isUpstream := true,
            matchesUpstreamServiceSNI := fun _ => true, envoyID := "", serviceName := "",
            upstreamVIP := fun _ => "" }
          p.1 p.2 = some []) :=
  C2_error_aggregation
    { canApply := fun _ => true,
      patchRoute := fun _ r => .ok (r, false),
      patchCluster := fun _ _ => .error "x",
      patchFilter := fun _ f => .ok (f, false) }
    { kind := "connect-proxy", isUpstream := true,
      matchesUpstreamServiceSNI := fun _ => true, envoyID := "", serviceName := "",
      upstreamVIP := fun _ => "" }
    { listeners := [], routes := [],
      clusters := [("c", .cluster { data := 0 }),
                   ("weird", .other "*envoy_tls_v3.Secret")] }
    _ _ (by decide) (Or.inr rfl) rfl rfl

/-- C7: in a terminating-gateway listener processed for an upstream-scoped
instance, exactly the filter chains whose first declared TLS server name
(`getSNI`; chains without one are skipped) satisfies
`MatchesUpstreamServiceSNI` get every one of their filters rewritten, in
order, through `PatchFilter` (`filterStep` describes one call); the listener
reports changed exactly when some offered filter reported `changed=true`. -/
theorem C7_terminating_gateway_listener (ext : BasicExtension) (config : RuntimeConfig)
    (l : Listener) (hup : config.isUpstream = true) :
    (patchTerminatingGatewayListener ext config l).1.filterChains =
      l.filterChains.map (fun fc =>
        if tgCandidate config fc then { fc with filters := fc.filters.map (filterStep ext config) }
        else fc) ∧
    (patchTerminatingGatewayListener ext config l).2.1 =
      l.filterChains.any (fun fc =>
        tgCandidate config fc && fc.filters.any (filterChangedB ext config)) := by
  unfold patchTerminatingGatewayListener
  rw [hup]
  obtain ⟨p1, p2, _⟩ := patchTGChains_spec ext config l.filterChains
  exact ⟨by simp [p1], by simp [p2]⟩

/-- Witness for C7: the spec scenario — two chains, one declaring the SNI
`svc.ns.dc.internal` (matching) and one declaring `other`; only the matching
chain's filter is rewritten and the listener is reported changed. -/
theorem C7_witness :
    (patchTerminatingGatewayListener
      { canApply := fun _ => true,
        patchRoute := fun _ r => .ok (r, false),
        patchCluster := fun _ c => .ok (c, false),
        patchFilter := fun _ f => .ok ({ data := f.data + 100 }, true) }
      { kind := "terminating-gateway", isUpstream := true,
        matchesUpstreamServiceSNI := fun s => s == "svc.ns.dc.internal", envoyID := "",
        serviceName := "", upstreamVIP := fun _ => "" }
      { name := "tgw",
        filterChains :=
          [{ filterChainMatch := some { serverNames := ["svc.ns.dc.internal"], cidrRanges := [] },
             filters := [{ data := 1 }] },
           { filterChainMatch := some { serverNames := ["other"], cidrRanges := [] },
             filters := [{ data := 2 }] }] }).1.filterChains =
      [{ filterChainMatch := some { serverNames := ["svc.ns.dc.internal"], cidrRanges := [] },
         filters := [{ data := 101 }] },
       { filterChainMatch := some { serverNames := ["other"], cidrRanges := [] },
         filters := [{ data := 2 }] }] ∧
    (patchTerminatingGatewayListener
      { canApply := fun _ => true,
        patchRoute := fun _ r => .ok (r, false),
        patchCluster := fun _ c => .ok (c, false),
        patchFilter := fun _ f => .ok ({ data := f.data + 100 }, true) }
      { kind := "terminating-gateway", isUpstream := true,
        matchesUpstreamServiceSNI := fun s => s == "svc.ns.dc.internal", envoyID := "",
        serviceName := "", upstreamVIP := fun _ => "" }
      { name := "tgw",
        filterChains :=
          [{ filterChainMatch := some { serverNames := ["svc.ns.dc.internal"], cidrRanges := [] },
             filters := [{ data := 1 }] },
           { filterChainMatch := some { serverNames := ["other"], cidrRanges := [] },
             filters := [{ data := 2 }] }] }).2.1 = true :=
  ⟨((C7_terminating_gateway_listener _ _ _ rfl).1).trans (by decide),
   ((C7_terminating_gateway_listener _ _ _ rfl).2).trans (by decide)⟩

/-- C5: transparent-proxy VIP matching is exact string equality on the full
address — a chain matches exactly when some declared address-prefix string
equals the configured VIP, so `10.0.0.5/32` does not match the VIP `10.0.0.5`
and vice versa; and over a listener's chains, exactly the matching chains are
candidates whose filters get rewritten. -/
theorem C5_tproxy_exact_vip_match :
    (∀ (vip : String) (m : FilterChainMatch) (fc : FilterChain),
        fc.filterChainMatch = some m →
        (filterChainTProxyMatch vip fc = some true ↔
          ∃ pr ∈ m.cidrRanges, pr.address = vip)) ∧
    (∀ (ext : BasicExtension) (config : RuntimeConfig) (vip : String) (cs : List FilterChain),
        (∀ fc ∈ cs, fc.filterChainMatch.isSome = true) →
        patchTProxyChains ext config vip cs =
          some (cs.map (fun fc =>
                  if tproxyCandidate vip fc then
                    { fc with filters := fc.filters.map (filterStep ext config) }
                  else fc),
                cs.any (fun fc =>
                  tproxyCandidate vip fc && fc.filters.any (filterChangedB ext config)),
                (cs.map (fun fc =>
                  if tproxyCandidate vip fc then fc.filters.filterMap (filterErr ext config)
                  else [])).flatten)) ∧
    filterChainTProxyMatch "10.0.0.5"
      { filterChainMatch := some { serverNames := [], cidrRanges := [{ address := "10.0.0.5/32" }] },
        filters := [] } = some false ∧
    filterChainTProxyMatch "10.0.0.5/32"
      { filterChainMatch := some { serverNames := [], cidrRanges := [{ address := "10.0.0.5" }] },
        filters := [] } = some false := by
  refine ⟨?_, fun ext config vip cs h => patchTProxyChains_spec ext config vip cs h,
    by decide, by decide⟩
  intro vip m fc hm
  simp only [filterChainTProxyMatch, hm, Option.some.injEq]
  rw [List.any_eq_true]
  constructor
  · rintro ⟨pr, hpr, hb⟩
    exact ⟨pr, hpr, (beq_iff_eq.mp hb).symm⟩
  · rintro ⟨pr, hpr, hb⟩
    exact ⟨pr, hpr, beq_iff_eq.mpr hb.symm⟩

/-- Witness for C5: a chain whose address-prefix equals the VIP exactly is a
match, and the chain loop on an empty chain list runs without effect. -/
theorem C5_witness :
    filterChainTProxyMatch "10.0.0.5"
      { filterChainMatch := some { serverNames := [], cidrRanges := [{ address := "10.0.0.5" }] },
        filters := [] } = some true ∧
    patchTProxyChains
      { canApply := fun _ => true,
        patchRoute := fun _ r => .ok (r, false),
        patchCluster := fun _ c => .ok (c, false),
        patchFilter := fun _ f => .ok (f, false) }
      { kind := "connect-proxy", isUpstream := true,
        matchesUpstreamServiceSNI := fun _ => false, envoyID := "", serviceName := "",
        upstreamVIP := fun _ => "10.0.0.5" }
      "10.0.0.5" [] = some ([], false, []) :=
  ⟨(C5_tproxy_exact_vip_match.1 "10.0.0.5" _ _ rfl).mpr
      ⟨{ address := "10.0.0.5" }, by decide, rfl⟩,
   C5_tproxy_exact_vip_match.2.1 _ _ "10.0.0.5" [] (by simp)⟩

/-- C3 (evaluation at the failing input): for a downstream-scoped
connect-proxy instance, `Extend` hands the SNI-free cluster `"db"` to
`PatchCluster` (its entry changes under an always-rewriting extension) while
the local-service sentinel `"local_app"` is skipped and never offered — the
code's skip guard compares `nameOrSNI == xdscommon.LocalAppClusterName` where
its own comment requires the name to *be* the sentinel, inverting the claimed
scoping. -/
theorem C3_downstream_cluster_guard_inverted :
    Extend
      { canApply := fun _ => true,
        patchRoute := fun _ r => .ok (r, false),
        patchCluster := fun _ c => .ok ({ data := c.data + 1 }, true),
        patchFilter := fun _ f => .ok (f, false) }
      { listeners := [], routes := [],
        clusters := [("local_app", .cluster { data := 0 }), ("db", .cluster { data := 0 })] }
      { kind := "connect-proxy", isUpstream := false,
        matchesUpstreamServiceSNI := fun _ => false, envoyID := "", serviceName := "",
        upstreamVIP := fun _ => "" } =
    some ({ listeners := [], routes := [],
            clusters := [("local_app", .cluster { data := 0 }), ("db", .cluster { data := 1 })] },
          none) := rfl

/-- C6 (evaluation at the failing input): a transparent-proxy filter chain
whose match clause is entirely absent makes `filterChainTProxyMatch`
dereference a nil `FilterChainMatch` pointer — a Go panic (modelled `none`)
that aborts the whole `Extend` pass instead of being treated as `feature
absent`. -/
theorem C6_nil_match_panics :
    filterChainTProxyMatch "10.0.0.5" { filterChainMatch := none, filters := [] } = none ∧
    Extend
      { canApply := fun _ => true,
        patchRoute := fun _ r => .ok (r, false),
        patchCluster := fun _ c => .ok (c, false),
        patchFilter := fun _ f => .ok (f, false) }
      { listeners :=
          [("outbound_listener:15001",
            .listener { name := "outbound_listener:15001",
                        filterChains := [{ filterChainMatch := none, filters := [] }] })],
        routes := [], clusters := [] }
      { kind := "connect-proxy", isUpstream := true,
        matchesUpstreamServiceSNI := fun _ => false, envoyID := "db", serviceName := "db",
        upstreamVIP := fun _ => "10.0.0.5" } = none :=
  ⟨rfl, rfl⟩

/-! ### Membership lemmas for RouteClusterNames -/

theorem mem_weightedInsert (x : String) :
    ∀ (wcs : List ClusterWeight) (s : Finset String),
      x ∈ weightedInsert s wcs ↔ x ∈ s ∨ (x ≠ "" ∧ ∃ w ∈ wcs, w.name = x) := by
  intro wcs
  induction wcs with
  | nil => intro s; simp [weightedInsert]
  | cons c rest ih =>
    intro s
    simp only [weightedInsert, List.foldl_cons]
    rw [show (List.foldl (fun s c => if c.name ≠ "" then insert c.name s else s)
        (if c.name ≠ "" then insert c.name s else s) rest) =
        weightedInsert (if c.name ≠ "" then insert c.name s else s) rest from rfl]
    rw [ih]
    by_cases hc : c.name = ""
    · rw [if_neg (by simp [hc])]
      constructor
      · rintro (h | ⟨hx, w, hw, hname⟩)
        · exact Or.inl h
        · exact Or.inr ⟨hx, w, List.mem_cons_of_mem _ hw, hname⟩
      · rintro (h | ⟨hx, w, hw, hname⟩)
        · exact Or.inl h
        · rcases List.mem_cons.mp hw with hw | hw
          · subst hw
            exact absurd (hname.symm.trans hc) hx
          · exact Or.inr ⟨hx, w, hw, hname⟩
    · rw [if_pos hc]
      constructor
      · rintro (h | ⟨hx, w, hw, hname⟩)
        · rcases Finset.mem_insert.mp h with h | h
          · exact Or.inr ⟨h ▸ hc, c, List.mem_cons_self _ _, h.symm⟩
          · exact Or.inl h
        · exact Or.inr ⟨hx, w, List.mem_cons_of_mem _ hw, hname⟩
      · rintro (h | ⟨hx, w, hw, hname⟩)
        · exact Or.inl (Finset.mem_insert_of_mem h)
        · rcases List.mem_cons.mp hw with hw | hw
          · subst hw
            exact Or.inl (Finset.mem_insert.mpr (Or.inl hname.symm))
          · exact Or.inr ⟨hx, w, hw, hname⟩

theorem mem_routeInsert (x : String) (r : RouteEntry) (s : Finset String) :
    x ∈ routeInsert s r ↔ x ∈ s ∨ (x ≠ "" ∧ routeEntryTargets r x) := by
  obtain ⟨act⟩ := r
  cases act with
  | none => simp [routeInsert, routeEntryTargets]
  | some ra =>
    obtain ⟨spec⟩ := ra
    cases spec with
    | cluster c =>
      by_cases hc : c = ""
      · subst hc
        simp only [routeInsert, routeEntryTargets]
        simp
        intro h1 h2
        exact absurd h2.symm h1
      · simp only [routeInsert, routeEntryTargets, ne_eq, hc, not_false_eq_true, if_true,
          Finset.mem_insert, Option.some.injEq]
        constructor
        · rintro (h | h)
          · exact Or.inr ⟨h ▸ hc, ⟨.cluster c⟩, rfl, Or.inl (by rw [h])⟩
          · exact Or.inl h
        · rintro (h | ⟨hx, ra', hra', hdisj⟩)
          · exact Or.inr h
          · subst hra'
            rcases hdisj with hspec | ⟨wcs, hwcs, _⟩
            · injection hspec with hspec
              exact Or.inl hspec.symm
            · cases hwcs
    | weightedClusters wcs =>
      simp only [routeInsert, routeEntryTargets, Option.some.injEq]
      rw [mem_weightedInsert]
      constructor
      · rintro (h | ⟨hx, w, hw, hname⟩)
        · exact Or.inl h
        · exact Or.inr ⟨hx, ⟨.weightedClusters wcs⟩, rfl, Or.inr ⟨wcs, rfl, w, hw, hname⟩⟩
      · rintro (h | ⟨hx, ra', hra', hdisj⟩)
        · exact Or.inl h
        · subst hra'
          rcases hdisj with hspec | ⟨wcs', hwcs, w, hw, hname⟩
          · cases hspec
          · injection hwcs with hwcs
            subst hwcs
            exact Or.inr ⟨hx, w, hw, hname⟩
    | other =>
      simp only [routeInsert, routeEntryTargets, Option.some.injEq]
      constructor
      · exact Or.inl
      · rintro (h | ⟨hx, ra', hra', hdisj⟩)
        · exact h
        · subst hra'
          rcases hdisj with hspec | ⟨wcs, hwcs, _⟩
          · cases hspec
          · cases hwcs

theorem mem_routesFold (x : String) :
    ∀ (rs : List RouteEntry) (s : Finset String),
      x ∈ rs.foldl routeInsert s ↔
        x ∈ s ∨ (x ≠ "" ∧ ∃ r ∈ rs, routeEntryTargets r x) := by
  intro rs
  induction rs with
  | nil => intro s; simp
  | cons r rest ih =>
    intro s
    simp only [List.foldl_cons]
    rw [ih, mem_routeInsert]
    constructor
    · rintro ((h | ⟨hx, ht⟩) | ⟨hx, r', hr', ht⟩)
      · exact Or.inl h
      · exact Or.inr ⟨hx, r, List.mem_cons_self _ _, ht⟩
      · exact Or.inr ⟨hx, r', List.mem_cons_of_mem _ hr', ht⟩
    · rintro (h | ⟨hx, r', hr', ht⟩)
      · exact Or.inl (Or.inl h)
      · rcases List.mem_cons.mp hr' with hr' | hr'
        · subst hr'
          exact Or.inl (Or.inr ⟨hx, ht⟩)
        · exact Or.inr ⟨hx, r', hr', ht⟩

theorem mem_vhsFold (x : String) :
    ∀ (vhs : List VirtualHost) (s : Finset String),
      x ∈ vhs.foldl vhInsert s ↔
        x ∈ s ∨ (x ≠ "" ∧ ∃ vh ∈ vhs, ∃ r ∈ vh.routes, routeEntryTargets r x) := by
  intro vhs
  induction vhs with
  | nil => intro s; simp
  | cons vh rest ih =>
    intro s
    simp only [List.foldl_cons]
    rw [ih, show vhInsert s vh = vh.routes.foldl routeInsert s from rfl, mem_routesFold]
    constructor
    · rintro ((h | ⟨hx, r, hr, ht⟩) | ⟨hx, vh', hvh, r, hr, ht⟩)
      · exact Or.inl h
      · exact Or.inr ⟨hx, vh, List.mem_cons_self _ _, r, hr, ht⟩
      · exact Or.inr ⟨hx, vh', List.mem_cons_of_mem _ hvh, r, hr, ht⟩
    · rintro (h | ⟨hx, vh', hvh, r, hr, ht⟩)
      · exact Or.inl (Or.inl h)
      · rcases List.mem_cons.mp hvh with hvh | hvh
        · subst hvh
          exact Or.inl (Or.inr ⟨hx, r, hr, ht⟩)
        · exact Or.inr ⟨hx, vh', hvh, r, hr, ht⟩

/-- C10: `RouteClusterNames` on a nil table is nil (not empty); on a non-nil
but route-less table it is the empty set; in general a name is in the result
exactly when it is non-empty and is some route's single cluster name or a
named member of some route's weighted-cluster set (set semantics deduplicate);
and the spec's example — one route targeting `db.default` plus one route with
weighted clusters `a`/`b` — yields exactly `{db.default, a, b}`. -/
theorem C10_route_cluster_names :
    RouteClusterNames none = none ∧
    (∀ rc : RouteConfiguration, (∀ vh ∈ rc.virtualHosts, vh.routes = []) →
      RouteClusterNames (some rc) = some ∅) ∧
    (∀ (rc : RouteConfiguration) (x : String),
      x ∈ (RouteClusterNames (some rc)).getD ∅ ↔ routeTargets rc x) ∧
    RouteClusterNames
      (some { name := "rt",
              virtualHosts :=
                [{ routes :=
                     [{ action := some { clusterSpecifier := .cluster "db.default" } },
                      { action := some { clusterSpecifier :=
                          .weightedClusters [{ name := "a", weight := 50 },
                                             { name := "b", weight := 50 }] } }] }] }) =
      some ({"db.default", "a", "b"} : Finset String) := by
  have hmem : ∀ (rc : RouteConfiguration) (x : String),
      x ∈ (RouteClusterNames (some rc)).getD ∅ ↔ routeTargets rc x := by
    intro rc x
    show x ∈ (some (rc.virtualHosts.foldl vhInsert ∅)).getD ∅ ↔ _
    rw [Option.getD_some, mem_vhsFold]
    simp [routeTargets]
  refine ⟨rfl, ?_, hmem, ?_⟩
  swap
  · rw [show RouteClusterNames
        (some { name := "rt",
                virtualHosts :=
                  [{ routes :=
                       [{ action := some { clusterSpecifier := .cluster "db.default" } },
                        { action := some { clusterSpecifier :=
                            .weightedClusters [{ name := "a", weight := 50 },
                                               { name := "b", weight := 50 }] } }] }] }) =
        some (List.foldl vhInsert ∅
          [({ routes :=
               [{ action := some { clusterSpecifier := .cluster "db.default" } },
                { action := some { clusterSpecifier :=
                    .weightedClusters [{ name := "a", weight := 50 },
                                       { name := "b", weight := 50 }] } }] } : VirtualHost)])
        from rfl]
    congr 1
    apply Finset.ext
    intro y
    rw [mem_vhsFold]
    simp [routeEntryTargets, Finset.mem_insert]
    aesop
  intro rc hempty
  show some (rc.virtualHosts.foldl vhInsert ∅) = some ∅
  congr 1
  apply Finset.eq_empty_iff_forall_not_mem.mpr
  intro x hx
  rw [mem_vhsFold] at hx
  rcases hx with hx | ⟨_, vh, hvh, r, hr, _⟩
  · simp at hx
  · rw [hempty vh hvh] at hr
    simp at hr

/-- Witness for C10: the membership characterization applied at the example
table and the name `a`. -/
theorem C10_witness :
    routeTargets
      { name := "rt",
        virtualHosts :=
          [{ routes :=
               [{ action := some { clusterSpecifier := .cluster "db.default" } },
                { action := some { clusterSpecifier :=
                    .weightedClusters [{ name := "a", weight := 50 },
                                       { name := "b", weight := 50 }] } }] }] } "a" :=
  (C10_route_cluster_names.2.2.1
    { name := "rt",
      virtualHosts :=
        [{ routes :=
             [{ action := some { clusterSpecifier := .cluster "db.default" } },
              { action := some { clusterSpecifier :=
                  .weightedClusters [{ name := "a", weight := 50 },
                                     { name := "b", weight := 50 }] } }] }] } "a").mp
    (by decide)

end ExtensionCommon
